import Mathlib

/-!
Verification of the DB2 SQL analysis core of `react-monaco-editor-db2`
(`src/languages/db2sql/db2sql.config.ts`) against its specification.

The TypeScript source is shallowly embedded: strings are `List Char`
(`Str` below), the hand-rolled regular expressions of the source are
embedded as explicit scanning functions that mirror the backtracking
semantics of the JavaScript regex engine on the construction actually
used, and every loop is written as structural recursion on an explicit
fuel argument (always instantiated with the length of the scanned list,
which bounds every loop of the source).

JavaScript specifics kept by the embedding:
  * `\s` is modelled by the ASCII whitespace characters (space, tab,
    newline, carriage return, vertical tab, form feed) — the source is
    only ever applied to SQL text;
  * `\w` (used by `\b` word boundaries) is `[A-Za-z0-9_]`, which differs
    from the identifier class `[A-Za-z0-9_#@$]` of the source's patterns,
    exactly as in JavaScript;
  * `String.prototype.substring` clamps and swaps its arguments
    (`jsSubstring`);
  * `toUpperCase` on the ASCII range is `Char.toUpper`.
-/

/-- Strings of the embedding: JavaScript strings as lists of characters. -/
abbrev Str := List Char

/-- Convert a Lean string literal to the embedding's string type. -/
def str (s : String) : Str := s.data

/-- JavaScript `\s` on the ASCII range. -/
def isWS (c : Char) : Bool :=
  c = ' ' || c = '\t' || c = '\n' || c = '\r' || c = Char.ofNat 11 || c = Char.ofNat 12

/-- ASCII upper-case letter. -/
def isUpperAZ (c : Char) : Bool := 'A' ≤ c && c ≤ 'Z'

/-- ASCII lower-case letter. -/
def isLowerAZ (c : Char) : Bool := 'a' ≤ c && c ≤ 'z'

/-- ASCII digit. -/
def isDigit09 (c : Char) : Bool := '0' ≤ c && c ≤ '9'

/-- The source's identifier-start class `[A-Za-z_#@$]`. -/
def isIdentStart (c : Char) : Bool :=
  isUpperAZ c || isLowerAZ c || c = '_' || c = '#' || c = '@' || c = '$'

/-- The source's identifier class `[A-Za-z0-9_#@$]`. -/
def isIdentChar (c : Char) : Bool := isIdentStart c || isDigit09 c

/-- JavaScript `\w` (note: `#`, `@`, `$` are not word characters). -/
def isJsWord (c : Char) : Bool := isUpperAZ c || isLowerAZ c || isDigit09 c || c = '_'

/-- `toUpperCase`, character-wise (ASCII). -/
def upperStr (s : Str) : Str := s.map Char.toUpper

/-- `n` spaces, as produced by `new Array(n + 1).join(' ')`. -/
def spaces (n : Nat) : Str := List.replicate n ' '

/-- Case-insensitive literal match at the head of `l`; the pattern `p` is
given in upper case. -/
def startsWithCIU : Str → Str → Bool
  | [], _ => true
  | _ :: _, [] => false
  | p :: ps, c :: cs => p = c.toUpper && startsWithCIU ps cs

/-- Case-sensitive literal match at the head of `l`. -/
def startsWithLit : Str → Str → Bool
  | [], _ => true
  | _ :: _, [] => false
  | p :: ps, c :: cs => p = c && startsWithLit ps cs

/-- Case-insensitive `endsWith`, by comparing reversals. -/
def endsWithCIU (s : Str) (p : Str) : Bool := startsWithCIU p.reverse s.reverse

/-- Length of the leading whitespace run (`\s*`). -/
def countWS (l : Str) : Nat := (l.takeWhile isWS).length

/-- Leading identifier-character run (`[A-Za-z0-9_#@$]+`, possibly empty). -/
def takeIdent (l : Str) : Str := l.takeWhile isIdentChar

/-- JavaScript `String.prototype.trim` (both ends, `\s`). -/
def jsTrim (s : Str) : Str := ((s.dropWhile isWS).reverse.dropWhile isWS).reverse

/-- Strip trailing whitespace only (the source's `replace(/\s+$/, '')`). -/
def rstrip (s : Str) : Str := (s.reverse.dropWhile isWS).reverse

/-- JavaScript `substring(a, b)`: clamps both indices to the length and
swaps them when `a > b`. -/
def jsSubstring (s : Str) (a b : Nat) : Str :=
  let a' := min a s.length
  let b' := min b s.length
  (s.take (max a' b')).drop (min a' b')

/-- JavaScript `substring(a)` (one argument). -/
def jsSubstringFrom (s : Str) (a : Nat) : Str := s.drop a

/-- First index of `pat` as a contiguous substring of `s`
(JavaScript `indexOf` for a non-empty needle; `none` when absent). -/
def indexOfSub : Str → Str → Option Nat
  | _, [] => some 0
  | [], _ :: _ => none
  | c :: cs, pat =>
      if startsWithLit pat (c :: cs) then some 0
      else (indexOfSub cs pat).map (· + 1)

/-- First index of character `c` (JavaScript `indexOf`). -/
def indexOfChar (s : Str) (c : Char) : Option Nat := indexOfSub s [c]

/-- Last index of character `c` (JavaScript `lastIndexOf`). -/
def lastIndexOfChar (s : Str) (c : Char) : Option Nat :=
  (indexOfChar s.reverse c).map (fun i => s.length - 1 - i)

/-- Membership of a string in a list of strings (`indexOf(x) >= 0`). -/
def elemStr (x : Str) : List Str → Bool
  | [] => false
  | y :: ys => x = y || elemStr x ys

/-- `tableName.split('.')[1]`, guarded by `indexOf('.') >= 0`, as used
throughout the source to strip a schema qualifier. -/
def shortNameOf (s : Str) : Str :=
  if s.contains '.' then (List.splitOn '.' s).getD 1 [] else s

/-- JavaScript `split('\n')`. -/
def splitLines : Str → List Str
  | [] => [[]]
  | c :: rest =>
      if c = '\n' then [] :: splitLines rest
      else
        match splitLines rest with
        | l :: ls => (c :: l) :: ls
        | [] => [[c]]

/-- Monaco `getLineContent` (1-based line number, empty when out of range). -/
def lineContent (text : Str) (n : Nat) : Str := (splitLines text).getD (n - 1) []

/-- Re-join full lines, each followed by its newline. -/
def joinLinesNl : List Str → Str
  | [] => []
  | l :: ls => l ++ '\n' :: joinLinesNl ls

/-- Monaco `getValueInRange` from (1,1) to (line, col): all full lines
before `line` with their newlines, then the first `col - 1` characters of
line `line`. -/
def textUpTo (text : Str) (line col : Nat) : Str :=
  joinLinesNl ((splitLines text).take (line - 1)) ++ (lineContent text line).take (col - 1)

/-- Translation of `getPositionFromOffset` (db2sql.config.ts:1159):
1-based line and column of a character offset, by a linear scan. -/
def getPositionFromOffset (text : Str) (offset : Nat) : Nat × Nat :=
  go text offset 1 1
where
  go : Str → Nat → Nat → Nat → Nat × Nat
    | _, 0, l, c => (l, c)
    | [], _ + 1, l, c => (l, c)
    | ch :: rest, n + 1, l, c =>
        if ch = '\n' then go rest n (l + 1) 1 else go rest n l (c + 1)

/-! ## The sanitizer `stripCommentsAndStrings` (db2sql.config.ts:125)

Three successive global regex replacements, each embedded as a fuelled
left-to-right scan (the JavaScript engine restarts each search at the end
of the previous match, and none of the three patterns can match the empty
string):
  1. `--[^\n]*`                → same-length run of spaces;
  2. `\/\*[\s\S]*?\*\//`       → every non-newline character becomes a space;
  3. `'[^']*'`                 → same-length run of spaces.
-/

/-- Pass 1: mask `--` line comments (to end of line or end of text). -/
def maskLineGo : Nat → Str → Str
  | 0, l => l
  | _ + 1, [] => []
  | fuel + 1, c :: rest =>
      if c = '-' ∧ rest.head? = some '-' then
        let body := rest.takeWhile (· ≠ '\n')
        spaces (body.length + 1) ++ maskLineGo fuel (rest.dropWhile (· ≠ '\n'))
      else
        c :: maskLineGo fuel rest

/-- The global `--[^\n]*` replacement of the sanitizer. -/
def maskLine (l : Str) : Str := maskLineGo l.length l

/-- Index of the first `*/` in `l` (start of the lazy `[\s\S]*?\*\/` close). -/
def findClose : Str → Option Nat
  | [] => none
  | c :: rest =>
      if c = '*' ∧ rest.head? = some '/' then some 0
      else (findClose rest).map (· + 1)

/-- Pass 2: mask `/* ... */` block comments, preserving newlines.  An
opener with no matching `*/` is left in place (the regex requires the
closing delimiter), exactly as in the source. -/
def maskBlockGo : Nat → Str → Str
  | 0, l => l
  | _ + 1, [] => []
  | fuel + 1, c :: rest =>
      if c = '/' ∧ rest.head? = some '*' then
        match findClose (rest.drop 1) with
        | some j =>
            (('/' :: rest.take (j + 3)).map (fun ch => if ch = '\n' then '\n' else ' '))
              ++ maskBlockGo fuel (rest.drop (j + 3))
        | none => c :: maskBlockGo fuel rest
      else
        c :: maskBlockGo fuel rest

/-- `result.replace(/\/\*[\s\S]*?\*\//g, mask-non-newline)`. -/
def maskBlock (l : Str) : Str := maskBlockGo l.length l

/-- Pass 3: mask `'...'` string literals (quotes included).  A quote with
no later closing quote is left in place (the regex requires both quotes). -/
def maskStrGo : Nat → Str → Str
  | 0, l => l
  | _ + 1, [] => []
  | fuel + 1, c :: rest =>
      if c = '\'' then
        let body := rest.takeWhile (· ≠ '\'')
        match rest.dropWhile (· ≠ '\'') with
        | _ :: after => spaces (body.length + 2) ++ maskStrGo fuel after
        | [] => c :: maskStrGo fuel rest
      else
        c :: maskStrGo fuel rest

/-- `result.replace(/'[^']*'/g, spaces)`. -/
def maskStr (l : Str) : Str := maskStrGo l.length l

/-- Translation of `stripCommentsAndStrings` (db2sql.config.ts:125): mask
line comments, then block comments, then string literals, each with
spaces, preserving length and newlines. -/
def stripCommentsAndStrings (expr : Str) : Str := maskStr (maskBlock (maskLine expr))

/-! ## Data model (db2sql.types.ts and db2sql.config.ts:102) -/

/-- Diagnostic severity. -/
inductive DB2Severity
  | error
  | warning
  | info
  | hint
deriving DecidableEq, Repr

/-- Translation of `DB2SQLDiagnostic` (db2sql.config.ts:102). -/
structure DB2SQLDiagnostic where
  startLineNumber : Nat
  startColumn : Nat
  endLineNumber : Nat
  endColumn : Nat
  message : Str
  severity : DB2Severity
deriving DecidableEq, Repr

/-- Translation of `DB2Column` (db2sql.types.ts). -/
structure DB2Column where
  name : Str
  dataType : Option Str := none
  description : Option Str := none
  nullable : Option Bool := none
  isPrimaryKey : Option Bool := none
deriving DecidableEq, Repr

/-- Translation of `DB2Table` (db2sql.types.ts); `columns` is optional. -/
structure DB2Table where
  name : Str
  schema : Option Str := none
  description : Option Str := none
  columns : Option (List DB2Column) := none
  type : Option Str := none
deriving DecidableEq, Repr

/-- Translation of `DB2Schema` (db2sql.types.ts). -/
structure DB2Schema where
  name : Str
  description : Option Str := none
  tables : Option (List DB2Table) := none
deriving DecidableEq, Repr

/-- Translation of `DB2SchemaConfig` (db2sql.types.ts). -/
structure DB2SchemaConfig where
  schemas : Option (List DB2Schema) := none
  tables : Option (List DB2Table) := none
  defaultSchema : Option Str := none
  showSchemaPrefix : Option Bool := none
deriving DecidableEq, Repr

/-- Translation of the `ParsedCTE.columns` element type (db2sql.config.ts:1003). -/
structure ParsedCTEColumn where
  name : Str
  expression : Option Str := none
  sourceTable : Option Str := none
  sourceColumn : Option Str := none
deriving DecidableEq, Repr

/-- Translation of `ParsedCTEWithContext` (db2sql.config.ts:1018). -/
structure ParsedCTEWithContext where
  name : Str
  columns : List ParsedCTEColumn
  startOffset : Nat
  endOffset : Nat
  bodyStartOffset : Nat
  bodyEndOffset : Nat
  fromTables : List Str
deriving DecidableEq, Repr

/-! ## Regex scanning drivers

A matcher receives the character before the current position (for
look-behind and `\b`) and the suffix starting there; it returns the
length of the match and a payload.  `scanAll` mirrors a global
`exec` loop: it tries every position left to right and resumes after
each match (none of the embedded patterns can match the empty string,
`max len 1` merely keeps the recursion well-founded). -/

/-- Fuelled global-scan driver. -/
def scanAllGo (f : Option Char → Str → Option (Nat × α)) :
    Nat → Option Char → Nat → Str → List (Nat × α)
  | 0, _, _, _ => []
  | _ + 1, _, _, [] => []
  | fuel + 1, prev, i, c :: rest =>
      match f prev (c :: rest) with
      | some (len, a) =>
          let n := max len 1
          (i, a) :: scanAllGo f fuel ((c :: rest).take n).getLast? (i + n) ((c :: rest).drop n)
      | none => scanAllGo f fuel (some c) (i + 1) rest

/-- All matches of a pattern over `l`, with their start indices. -/
def scanAll (f : Option Char → Str → Option (Nat × α)) (l : Str) : List (Nat × α) :=
  scanAllGo f l.length none 0 l

/-- Fuelled first-match driver (non-global `match`). -/
def firstMatchGo (f : Option Char → Str → Option α) :
    Nat → Option Char → Nat → Str → Option (Nat × α)
  | 0, _, _, _ => none
  | _ + 1, _, _, [] => none
  | fuel + 1, prev, i, c :: rest =>
      match f prev (c :: rest) with
      | some a => some (i, a)
      | none => firstMatchGo f fuel (some c) (i + 1) rest

/-- First match of a pattern over `l`, with its start index. -/
def firstMatch (f : Option Char → Str → Option α) (l : Str) : Option (Nat × α) :=
  firstMatchGo f l.length none 0 l

/-- `\b` seen from the right: true when the previous character is absent
or not a JavaScript word character. -/
def boundaryBefore : Option Char → Bool
  | none => true
  | some c => !(isJsWord c)

/-- Case-insensitive keyword alternative; returns the matched length. -/
def matchCIkw (kw : String) (l : Str) : Option Nat :=
  if startsWithCIU (str kw) l then some (str kw).length else none

/-- `K1\s+K2` alternative (for `GROUP BY` / `ORDER BY`). -/
def matchKwWsKw (k1 k2 : String) (l : Str) : Option Nat :=
  if startsWithCIU (str k1) l then
    let r := l.drop (str k1).length
    let w := countWS r
    if 1 ≤ w ∧ startsWithCIU (str k2) (r.drop w)
    then some ((str k1).length + w + (str k2).length) else none
  else none

/-! ## Structural checks of `validateDB2SQL` (db2sql.config.ts:144-352) -/

/-- State of the unclosed-string scan (db2sql.config.ts:145). -/
structure UclState where
  inString : Bool
  startLine : Nat
  startCol : Nat
deriving DecidableEq, Repr

/-- One line of the unclosed-string scan: a quote toggles the in-string
state only when it is not immediately preceded by another quote
(db2sql.config.ts:152). -/
def uclLineGo (ln : Nat) : Str → Nat → Option Char → UclState → UclState
  | [], _, _, st => st
  | c :: rest, col, prev, st =>
      let st' :=
        if c = '\'' ∧ prev ≠ some '\'' then
          if !st.inString then ⟨true, ln, col⟩ else ⟨false, st.startLine, st.startCol⟩
        else st
      uclLineGo ln rest (col + 1) (some c) st'

/-- The unclosed-string scan over all lines. -/
def uclLines : List Str → Nat → UclState → UclState
  | [], _, st => st
  | l :: ls, ln, st => uclLines ls (ln + 1) (uclLineGo ln l 0 none st)

/-- Diagnostics of the unclosed-string check (db2sql.config.ts:144-172). -/
def unclosedStringDiags (text : Str) : List DB2SQLDiagnostic :=
  let st := uclLines (splitLines text) 0 ⟨false, 0, 0⟩
  if st.inString then
    [⟨st.startLine + 1, st.startCol + 1, st.startLine + 1, st.startCol + 2,
      str "Unclosed string literal", .error⟩]
  else []

/-- The clause-keyword alternation of `trailingCommaRegex`
(db2sql.config.ts:176), in the regex's alternative order. -/
def matchClauseKwAlt (l : Str) : Option Nat :=
  matchCIkw "FROM" l <|> matchCIkw "WHERE" l <|> matchKwWsKw "GROUP" "BY" l <|>
  matchKwWsKw "ORDER" "BY" l <|> matchCIkw "HAVING" l <|> matchCIkw "UNION" l <|>
  matchCIkw "EXCEPT" l <|> matchCIkw "INTERSECT" l <|> matchCIkw "FETCH" l <|>
  matchCIkw "LIMIT" l <|> matchCIkw "FOR" l <|>
  (if l.head? = some ';' then some 1 else none) <|>
  (if l.head? = some ')' then some 1 else none)

/-- Matcher for `trailingCommaRegex`: a comma, optional whitespace, then a
clause keyword; the payload is the captured keyword text. -/
def tryTrailingComma (_ : Option Char) : Str → Option (Nat × Str)
  | ',' :: rest =>
      let w := countWS rest
      match matchClauseKwAlt (rest.drop w) with
      | some klen => some (1 + w + klen, (rest.drop w).take klen)
      | none => none
  | _ => none

/-- Diagnostics of the trailing-comma check (db2sql.config.ts:174-188). -/
def trailingCommaDiags (text : Str) : List DB2SQLDiagnostic :=
  (scanAll tryTrailingComma text).map fun m =>
    let p := getPositionFromOffset text m.1
    ⟨p.1, p.2, p.1, p.2 + 1,
      str "Unexpected comma before " ++ upperStr (jsTrim m.2), .error⟩

/-- State of the unmatched-parenthesis scan (db2sql.config.ts:209). -/
structure ParenState where
  inStr : Bool
  depth : Int
  stack : List (Nat × Nat)
  diags : List DB2SQLDiagnostic
deriving Repr

/-- One character of the parenthesis scan (db2sql.config.ts:215-242). -/
def parenStep (ln col : Nat) (c : Char) (st : ParenState) : ParenState :=
  if c = '\'' ∧ !st.inStr then { st with inStr := true }
  else if c = '\'' ∧ st.inStr then { st with inStr := false }
  else if !st.inStr then
    if c = '(' then { st with depth := st.depth + 1, stack := st.stack ++ [(ln, col)] }
    else if c = ')' then
      if st.depth - 1 < 0 then
        { st with depth := 0, diags := st.diags ++
            [⟨ln + 1, col + 1, ln + 1, col + 2,
              str "Unexpected closing parenthesis", DB2Severity.error⟩] }
      else { st with depth := st.depth - 1, stack := st.stack.dropLast }
    else st
  else st

/-- One line of the parenthesis scan; the in-string flag is (re)set per
line by the caller, depth and stack persist (db2sql.config.ts:212-243). -/
def parenLineGo (ln : Nat) : Str → Nat → ParenState → ParenState
  | [], _, st => st
  | c :: rest, col, st => parenLineGo ln rest (col + 1) (parenStep ln col c st)

/-- The parenthesis scan over all lines. -/
def parenLines : List Str → Nat → ParenState → ParenState
  | [], _, st => st
  | l :: ls, ln, st => parenLines ls (ln + 1) (parenLineGo ln l 0 { st with inStr := false })

/-- The "Unclosed parenthesis" diagnostic for a stacked opener. -/
def mkUnclosedParenDiag (p : Nat × Nat) : DB2SQLDiagnostic :=
  ⟨p.1 + 1, p.2 + 1, p.1 + 1, p.2 + 2, str "Unclosed parenthesis", .error⟩

/-- Diagnostics of the parenthesis check (db2sql.config.ts:209-255):
scan errors first, then one error per opener left on the stack. -/
def parenDiags (text : Str) : List DB2SQLDiagnostic :=
  let st := parenLines (splitLines text) 0 ⟨false, 0, [], []⟩
  st.diags ++ st.stack.map mkUnclosedParenDiag

/-- Matcher for `emptySelectRegex` `SELECT\s+(FROM|WHERE)`
(db2sql.config.ts:258). -/
def tryEmptySelect (_ : Option Char) (l : Str) : Option (Nat × Unit) :=
  if startsWithCIU (str "SELECT") l then
    let r := l.drop 6
    let w := countWS r
    if 1 ≤ w then
      if startsWithCIU (str "FROM") (r.drop w) then some (6 + w + 4, ())
      else if startsWithCIU (str "WHERE") (r.drop w) then some (6 + w + 5, ())
      else none
    else none
  else none

/-- Diagnostics of the empty-SELECT check (db2sql.config.ts:257-270). -/
def emptySelectDiags (text : Str) : List DB2SQLDiagnostic :=
  (scanAll tryEmptySelect text).map fun m =>
    let p := getPositionFromOffset text m.1
    ⟨p.1, p.2, p.1, p.2 + 6, str "SELECT requires at least one column or expression", .error⟩

/-- Matcher for `doubleCommaRegex` `,\s*,` (db2sql.config.ts:273); the
payload is the length of the whole match. -/
def tryDupComma (_ : Option Char) : Str → Option (Nat × Nat)
  | ',' :: rest =>
      let w := countWS rest
      if (rest.drop w).head? = some ',' then some (2 + w, 2 + w) else none
  | _ => none

/-- Diagnostics of the duplicate-comma check (db2sql.config.ts:272-285). -/
def dupCommaDiags (text : Str) : List DB2SQLDiagnostic :=
  (scanAll tryDupComma text).map fun m =>
    let p := getPositionFromOffset text m.1
    ⟨p.1, p.2, p.1, p.2 + m.2, str "Duplicate comma", .error⟩

/-- The look-ahead `(?=\s+FROM\b)` of `selectClauseRegex`
(db2sql.config.ts:290). -/
def lookFromWordB (l : Str) : Bool :=
  let w := countWS l
  1 ≤ w && startsWithCIU (str "FROM") (l.drop w) &&
    (match (l.drop (w + 4)).head? with
     | some c => !(isJsWord c)
     | none => true)

/-- The look-ahead `(?=\s+FROM\s+)` of the CTE / main-query SELECT
matchers (db2sql.config.ts:564, 800, 1069). -/
def lookFromWs (l : Str) : Bool :=
  let w := countWS l
  1 ≤ w && startsWithCIU (str "FROM") (l.drop w) && 1 ≤ countWS (l.drop (w + 4))

/-- Position of the first suffix satisfying a look-ahead. -/
def findLook (look : Str → Bool) : Nat → Nat → Str → Option Nat
  | 0, _, _ => none
  | _ + 1, _, [] => none
  | fuel + 1, i, c :: rest =>
      if look (c :: rest) then some i else findLook look fuel (i + 1) rest

/-- Matcher for `SELECT\s+([\s\S]*?)(?=...)`, with an optional `\b`
before `SELECT` (`bd`).  The lazy group stops at the first position where
the look-ahead holds; when no such position exists at or after the end of
the greedy `\s+`, the engine backtracks `\s+` into the whitespace run,
where only a position one short of the run can still satisfy the
look-ahead.  The payload is the consumed whitespace length and the
captured group. -/
def trySelectClause (bd : Bool) (look : Str → Bool) (prev : Option Char) (l : Str) :
    Option (Nat × (Nat × Str)) :=
  if (!bd || boundaryBefore prev) && startsWithCIU (str "SELECT") l then
    let r := l.drop 6
    let w := countWS r
    if 1 ≤ w then
      match findLook look (r.drop w).length 0 (r.drop w) with
      | some q => some (6 + w + q, (w, (r.drop w).take q))
      | none =>
          if 2 ≤ w ∧ look (r.drop (w - 1)) = true then some (6 + (w - 1), (w - 1, []))
          else none
    else none
  else none

/-- The keyword skip-list of the missing-comma check
(`sqlKeywordsUpper`, db2sql.config.ts:311). -/
def sqlKeywordsUpper : List Str :=
  [str "SELECT", str "FROM", str "WHERE", str "AND", str "OR", str "AS", str "ON",
   str "JOIN", str "LEFT", str "RIGHT", str "INNER", str "OUTER", str "FULL",
   str "CROSS", str "GROUP", str "BY", str "ORDER", str "HAVING", str "UNION",
   str "EXCEPT", str "INTERSECT", str "CASE", str "WHEN", str "THEN", str "ELSE",
   str "END", str "NULL", str "NOT", str "IN", str "BETWEEN", str "LIKE",
   str "EXISTS", str "IS", str "ASC", str "DESC", str "DISTINCT", str "ALL"]

/-- Matcher for `missingCommaPattern` (db2sql.config.ts:309): two
identifiers separated by whitespace containing a newline, with an
identifier-class look-behind.  The payload is the two identifiers. -/
def tryMissingCommaPair (prev : Option Char) (l : Str) : Option (Nat × (Str × Str)) :=
  if (match prev with | none => true | some c => !(isIdentChar c)) then
    match l with
    | c :: _ =>
        if isIdentStart c then
          let id1 := takeIdent l
          let r := l.drop id1.length
          let w := countWS r
          if 1 ≤ w ∧ (r.take w).contains '\n' then
            match r.drop w with
            | d :: _ =>
                if isIdentStart d then
                  let id2 := takeIdent (r.drop w)
                  some (id1.length + w + id2.length, (id1, id2))
                else none
            | [] => none
          else none
        else none
    | [] => none
  else none

/-- One identifier pair of the missing-comma check
(db2sql.config.ts:313-336): skipped when either side is a keyword or the
first is `AS`. -/
def missingCommaEntry (text : Str) (selectStartPos : Nat) (mc : Nat × (Str × Str)) :
    Option DB2SQLDiagnostic :=
  if upperStr mc.2.1 = str "AS" then none
  else if elemStr (upperStr mc.2.2) sqlKeywordsUpper then none
  else if elemStr (upperStr mc.2.1) sqlKeywordsUpper then none
  else
    let p := getPositionFromOffset text (selectStartPos + mc.1 + mc.2.1.length)
    some ⟨p.1, p.2, p.1, p.2 + 1,
      str "Missing comma between \"" ++ mc.2.1 ++ str "\" and \"" ++ mc.2.2 ++ str "\"", .error⟩

/-- Diagnostics of the missing-comma check (db2sql.config.ts:287-337):
for each `SELECT ... FROM` projection, comments are masked and identifier
pairs straddling a newline are flagged unless either side is a keyword. -/
def missingCommaDiags (text : Str) : List DB2SQLDiagnostic :=
  ((scanAll (trySelectClause true lookFromWordB) text).map fun m =>
    (scanAll tryMissingCommaPair (maskBlock (maskLine m.2.2))).filterMap
      (missingCommaEntry text (m.1 + 6 + m.2.1))).flatten

/-- The direct (non-newline) alternatives of `incompleteDotRegex`
(db2sql.config.ts:340), in the regex's order. -/
def matchIncompleteAlt (l : Str) : Option Nat :=
  (if l.head? = some ',' then some 1 else none) <|>
  matchCIkw "FROM" l <|> matchCIkw "WHERE" l <|> matchCIkw "AND" l <|>
  matchCIkw "OR" l <|> matchCIkw "ORDER" l <|> matchCIkw "GROUP" l <|>
  matchCIkw "HAVING" l <|> matchCIkw "UNION" l <|> matchCIkw "EXCEPT" l <|>
  matchCIkw "INTERSECT" l <|>
  (if l.head? = some ';' then some 1 else none) <|>
  (if l.head? = some ')' then some 1 else none)

/-- Matcher for `incompleteDotRegex`: an identifier, a dot, whitespace,
then a clause token — or, backtracking into the whitespace run, a newline
(the last one in the run).  The payload is the identifier. -/
def tryIncompleteDot (_ : Option Char) (l : Str) : Option (Nat × Str) :=
  match l with
  | c :: _ =>
      if isIdentChar c then
        let id1 := takeIdent l
        let r := l.drop id1.length
        if r.head? = some '.' then
          let r2 := r.drop 1
          let w := countWS r2
          match matchIncompleteAlt (r2.drop w) with
          | some alen => some (id1.length + 1 + w + alen, id1)
          | none =>
              match lastIndexOfChar (r2.take w) '\n' with
              | some k => some (id1.length + 1 + k + 1, id1)
              | none => none
        else none
      else none
  | [] => none

/-- Diagnostics of the incomplete-qualified-reference check
(db2sql.config.ts:339-352); anchored at the dot. -/
def incompleteDotDiags (text : Str) : List DB2SQLDiagnostic :=
  (scanAll tryIncompleteDot text).map fun m =>
    let p := getPositionFromOffset text (m.1 + m.2.length)
    ⟨p.1, p.2, p.1, p.2 + 1,
      str "Incomplete reference: expected column name after \"" ++ m.2 ++ str ".\"", .error⟩

/-! ## CTE name extraction for the unknown-table check
(db2sql.config.ts:190-203) -/

/-- The `(?:\/\*[\s\S]*?\*\/|--[^\n]*\n|\s)*` gap of the CTE-name
regexes: greedily consume block comments, newline-terminated line
comments and whitespace; returns the consumed length. -/
def skipWsCommentsGo : Nat → Str → Nat
  | 0, _ => 0
  | _ + 1, [] => 0
  | fuel + 1, c :: rest =>
      if c = '/' ∧ rest.head? = some '*' then
        match findClose (rest.drop 1) with
        | some j =>
            let n := j + 4
            n + skipWsCommentsGo fuel ((c :: rest).drop n)
        | none => 0
      else if c = '-' ∧ rest.head? = some '-' then
        match indexOfChar rest '\n' with
        | some k =>
            let n := k + 2
            n + skipWsCommentsGo fuel ((c :: rest).drop n)
        | none => 0
      else if isWS c then 1 + skipWsCommentsGo fuel rest
      else 0

/-- Length of the comment/whitespace gap at the head of `l`. -/
def skipWsComments (l : Str) : Nat := skipWsCommentsGo l.length l

/-- Shared tail of both CTE-name regexes: gap, identifier, `\s+AS\s*(`.
Returns consumed length and the captured identifier. -/
def tryCteAfterGap (l : Str) : Option (Nat × Str) :=
  let g := skipWsComments l
  let r := l.drop g
  match r with
  | c :: _ =>
      if isIdentStart c then
        let id := takeIdent r
        let r2 := r.drop id.length
        let w := countWS r2
        if 1 ≤ w ∧ startsWithCIU (str "AS") (r2.drop w) then
          let r3 := (r2.drop w).drop 2
          let w2 := countWS r3
          if (r3.drop w2).head? = some '(' then
            some (g + id.length + w + 2 + w2 + 1, id)
          else none
        else none
      else none
  | [] => none

/-- Matcher for `cteRegex` (db2sql.config.ts:192): `WITH\s+` then the
gap, then `name AS (`. -/
def tryWithCte (_ : Option Char) (l : Str) : Option (Nat × Str) :=
  if startsWithCIU (str "WITH") l then
    let r := l.drop 4
    let w := countWS r
    if 1 ≤ w then
      match tryCteAfterGap (r.drop w) with
      | some (n, id) => some (4 + w + n, id)
      | none => none
    else none
  else none

/-- Matcher for `subsequentCteRegex` (db2sql.config.ts:200):
`)\s*,` then the gap, then `name AS (`. -/
def trySubsequentCte (_ : Option Char) : Str → Option (Nat × Str)
  | ')' :: rest =>
      let w := countWS rest
      if (rest.drop w).head? = some ',' then
        match tryCteAfterGap ((rest.drop w).drop 1) with
        | some (n, id) => some (1 + w + 1 + n, id)
        | none => none
      else none
  | _ => none

/-- The upper-cased CTE names collected by `validateDB2SQL`
(db2sql.config.ts:190-203): initial `WITH` matches first, then
`), name AS (` matches. -/
def cteNamesOf (text : Str) : List Str :=
  (scanAll tryWithCte text).map (fun m => upperStr m.2) ++
  (scanAll trySubsequentCte text).map (fun m => upperStr m.2)

/-! ## `parseCTEs` (db2sql.config.ts:1027) -/

/-- The `\bWITH\s+` guard of `parseCTEs` (db2sql.config.ts:1031). -/
def hasWithKeyword (text : Str) : Bool :=
  (firstMatch (fun prev l =>
      if boundaryBefore prev && startsWithCIU (str "WITH") l && 1 ≤ countWS (l.drop 4)
      then some () else none) text).isSome

/-- Matcher for `ctePattern` `(ident)\s+AS\s*\(` (db2sql.config.ts:1036);
the payload is the captured name and the match length. -/
def tryCteDef (_ : Option Char) (l : Str) : Option (Nat × (Str × Nat)) :=
  match l with
  | c :: _ =>
      if isIdentStart c then
        let id := takeIdent l
        let r := l.drop id.length
        let w := countWS r
        if 1 ≤ w ∧ startsWithCIU (str "AS") (r.drop w) then
          let r2 := (r.drop w).drop 2
          let w2 := countWS r2
          if (r2.drop w2).head? = some '(' then
            let n := id.length + w + 2 + w2 + 1
            some (n, (id, n))
          else none
        else none
      else none
  | [] => none

/-- The matching-parenthesis walk of `parseCTEs` (db2sql.config.ts:1044):
advance while depth is positive, ignoring parentheses inside strings;
returns the final position (one past the closing parenthesis). -/
def cteBodyEndGo : Nat → Str → Nat → Int → Bool → Nat
  | 0, _, pos, _, _ => pos
  | _ + 1, [], pos, _, _ => pos
  | fuel + 1, c :: rest, pos, depth, inString =>
      if depth > 0 then
        let s : Int × Bool :=
          if c = '\'' ∧ !inString then (depth, true)
          else if c = '\'' ∧ inString then (depth, false)
          else if !inString then
            if c = '(' then (depth + 1, inString)
            else if c = ')' then (depth - 1, inString)
            else (depth, inString)
          else (depth, inString)
        cteBodyEndGo fuel rest (pos + 1) s.1 s.2
      else pos

/-- `e.replace(/^\s*(DISTINCT|ALL)\s+/i, '')` (db2sql.config.ts:1101). -/
def stripDistinctAll (e : Str) : Str :=
  let w := countWS e
  let r := e.drop w
  if startsWithCIU (str "DISTINCT") r ∧ 1 ≤ countWS (r.drop 8) then
    r.drop (8 + countWS (r.drop 8))
  else if startsWithCIU (str "ALL") r ∧ 1 ≤ countWS (r.drop 3) then
    r.drop (3 + countWS (r.drop 3))
  else e

/-- Tail of the `<expr> AS <alias>` pattern after the lazy group:
`\s+AS\s+ident` then end of string (trailing whitespace allowed when
`allowTrailWs`, matching the two variants in the source). -/
def asTailMatch (allowTrailWs : Bool) (r : Str) : Option Str :=
  let w := countWS r
  if 1 ≤ w ∧ startsWithCIU (str "AS") (r.drop w) then
    let r2 := (r.drop w).drop 2
    let w2 := countWS r2
    if 1 ≤ w2 then
      let r3 := r2.drop w2
      match r3 with
      | c :: _ =>
          if isIdentStart c then
            let id := takeIdent r3
            let tailStr := r3.drop id.length
            if (if allowTrailWs then tailStr.dropWhile isWS = [] else tailStr = [])
            then some id else none
          else none
      | [] => none
    else none
  else none

/-- Anchored `^([\s\S]+?)\s+AS\s+(ident)\s*$` (db2sql.config.ts:1105;
without the trailing `\s*` for the main-query variant at line 861): the
lazy left group grows until the tail matches. -/
def matchAsAlias (allowTrailWs : Bool) (e : Str) : Option (Str × Str) :=
  go e.length 1
where
  go : Nat → Nat → Option (Str × Str)
    | 0, _ => none
    | fuel + 1, p =>
        if p < e.length then
          match asTailMatch allowTrailWs (e.drop p) with
          | some id => some (e.take p, id)
          | none => go fuel (p + 1)
        else none

/-- Anchored `^(identStart...)\.(identStart...)$` (db2sql.config.ts:1113). -/
def matchSimpleDotted (e : Str) : Option (Str × Str) :=
  match e with
  | c :: _ =>
      if isIdentStart c then
        let a := takeIdent e
        let r := e.drop a.length
        match r with
        | '.' :: r2 =>
            match r2 with
            | d :: _ =>
                if isIdentStart d then
                  let b := takeIdent r2
                  if r2.drop b.length = [] then some (a, b) else none
                else none
            | [] => none
        | _ => none
      else none
  | [] => none

/-- Anchored `^(identStart...)$` (db2sql.config.ts:1122). -/
def matchBareIdent (e : Str) : Option Str :=
  match e with
  | c :: _ =>
      if isIdentStart c then
        let a := takeIdent e
        if e.drop a.length = [] then some a else none
      else none
  | [] => none

/-- Matcher for `(?:FROM|JOIN)\s+([A-Za-z0-9_#@$]+(?:\.[A-Za-z0-9_#@$]+)?)`
(`tableRefRegex`, db2sql.config.ts:368, and `fromRegex`, line 1136); the
payload is the captured, possibly dot-qualified, name. -/
def matchDottedIdentFull (l : Str) : Option Str :=
  match l with
  | c :: _ =>
      if isIdentChar c then
        let a := takeIdent l
        let r := l.drop a.length
        if r.head? = some '.' then
          match r.drop 1 with
          | d :: _ => if isIdentChar d then some (a ++ '.' :: takeIdent (r.drop 1)) else some a
          | [] => some a
        else some a
      else none
  | [] => none

/-- `FROM`/`JOIN` + whitespace + dotted identifier. -/
def tryFromJoinTable (_ : Option Char) (l : Str) : Option (Nat × Str) :=
  let kwLen : Option Nat :=
    if startsWithCIU (str "FROM") l then some 4
    else if startsWithCIU (str "JOIN") l then some 4 else none
  match kwLen with
  | some k =>
      let r := l.drop k
      let w := countWS r
      if 1 ≤ w then
        match matchDottedIdentFull (r.drop w) with
        | some cap => some (k + w + cap.length, cap)
        | none => none
      else none
  | none => none

/-- Classification of one projection expression (db2sql.config.ts:1099-1131). -/
def classifyColumn (expr : Str) : Option ParsedCTEColumn :=
  let cleanExpr := jsTrim (stripDistinctAll expr)
  if cleanExpr = [] ∨ cleanExpr = str "*" then none
  else
    match matchAsAlias true cleanExpr with
    | some (left, a) => some { name := upperStr a, expression := some (jsTrim left) }
    | none =>
        match matchSimpleDotted cleanExpr with
        | some (t, c) =>
            some { name := upperStr c, sourceTable := some (upperStr t),
                   sourceColumn := some (upperStr c) }
        | none =>
            match matchBareIdent cleanExpr with
            | some c => some { name := upperStr c, sourceColumn := some (upperStr c) }
            | none => none

/-- The comma split of the projection list in `parseCTEs`
(db2sql.config.ts:1074-1096): top-level commas only, quote-aware;
segments are trimmed as they are pushed, the final segment only when
non-blank. -/
def splitColExprsPGo : Str → Str → Int → Bool → List Str → List Str
  | [], cur, _, _, acc => if jsTrim cur ≠ [] then acc ++ [jsTrim cur] else acc
  | c :: rest, cur, depth, inStr, acc =>
      if c = '\'' ∧ !inStr then splitColExprsPGo rest (cur ++ [c]) depth true acc
      else if c = '\'' ∧ inStr then splitColExprsPGo rest (cur ++ [c]) depth false acc
      else if !inStr then
        if c = '(' then splitColExprsPGo rest (cur ++ [c]) (depth + 1) inStr acc
        else if c = ')' then splitColExprsPGo rest (cur ++ [c]) (depth - 1) inStr acc
        else if c = ',' ∧ depth = 0 then splitColExprsPGo rest [] depth inStr (acc ++ [jsTrim cur])
        else splitColExprsPGo rest (cur ++ [c]) depth inStr acc
      else splitColExprsPGo rest (cur ++ [c]) depth inStr acc

/-- Projection-list split of `parseCTEs`. -/
def splitColExprsP (selectClause : Str) : List Str :=
  splitColExprsPGo selectClause [] 0 false []

/-- The column list of one CTE body (db2sql.config.ts:1066-1132). -/
def parseCteColumns (cteBody : Str) : List ParsedCTEColumn :=
  match firstMatch (fun p l => trySelectClause false lookFromWs p l) cteBody with
  | none => []
  | some (_, (_, (_, content))) => (splitColExprsP content).filterMap classifyColumn

/-- Translation of `parseCTEs` (db2sql.config.ts:1027): empty unless a
`\bWITH\s+` occurs; every `name AS (` match yields one entry whose body
is delimited by the matching parenthesis and parsed for columns and
`FROM`/`JOIN` targets. -/
def parseCTEs (text : Str) : List ParsedCTEWithContext :=
  if hasWithKeyword text then
    (scanAll tryCteDef text).map fun m =>
      let startOffset := m.1
      let id := m.2.1
      let mlen := m.2.2
      let openParenPos := startOffset + mlen - 1
      let pos := cteBodyEndGo text.length (text.drop (openParenPos + 1)) (openParenPos + 1) 1 false
      let cteBody := jsSubstring text (openParenPos + 1) (pos - 1)
      { name := upperStr id,
        columns := parseCteColumns cteBody,
        startOffset := startOffset,
        endOffset := pos,
        bodyStartOffset := openParenPos + 1,
        bodyEndOffset := pos - 1,
        fromTables := (scanAll tryFromJoinTable cteBody).map (fun fm => upperStr fm.2) }
  else []

/-! ## Semantic checks of `validateDB2SQL` (db2sql.config.ts:358-995) -/

/-- JavaScript truthiness of an optional string field (`undefined` and
`''` are both falsy, as in `t.schema ? ... : ...`). -/
def optNonEmpty : Option Str → Option Str
  | some s => if s = [] then none else some s
  | none => none

/-- Translation of `getAllTablesForValidation` (db2sql.config.ts:1176):
the flat table list, then every schema's tables with the schema name
defaulted (`table.schema || schema.name`). -/
def getAllTablesForValidation (schemaConfig : DB2SchemaConfig) : List DB2Table :=
  (match schemaConfig.tables with | some ts => ts | none => []) ++
  (match schemaConfig.schemas with
   | some ss =>
       (ss.map fun sch =>
         (match sch.tables with | some ts => ts | none => []).map fun (t : DB2Table) =>
           { name := t.name,
             schema := some (match optNonEmpty t.schema with | some s => s | none => sch.name),
             description := t.description, columns := t.columns, type := t.type }).flatten
   | none => [])

/-- Comma-space join (`Array.prototype.join(', ')`). -/
def joinComma : List Str → Str
  | [] => []
  | [x] => x
  | x :: y :: xs => x ++ str ", " ++ joinComma (y :: xs)

/-- Diagnostics of the unknown-table check (db2sql.config.ts:367-391). -/
def unknownTableDiags (text : Str) (tableNames fullTableNames cteNames : List Str) :
    List DB2SQLDiagnostic :=
  (scanAll tryFromJoinTable text).filterMap fun m =>
    let tableName := upperStr m.2
    let short := shortNameOf tableName
    if elemStr short tableNames || elemStr tableName fullTableNames ||
       elemStr short cteNames || elemStr tableName cteNames then none
    else
      let match0 := (text.drop m.1).take (m.2.length + 5)
      let o := (indexOfSub match0 m.2).getD 0
      let p := getPositionFromOffset text (m.1 + o)
      some ⟨p.1, p.2, p.1, p.2 + m.2.length,
        str "Unknown table: " ++ m.2, .warning⟩

/-- The negative look-ahead `(?!\s*\()` (function-call test). -/
def lookParen (l : Str) : Bool := (l.drop (countWS l)).head? = some '('

/-- Backtracking of the greedy second group of `columnRefRegex` against
its negative look-ahead: shorten the captured column until the remainder
no longer begins with `\s*\(`. -/
def shrinkNoParen : Nat → Str → Str → Option Str
  | 0, _, _ => none
  | fuel + 1, id2, after =>
      if !(lookParen after) then some id2
      else if id2.length ≤ 1 then none
      else
        match id2.getLast? with
        | some lastc => shrinkNoParen fuel id2.dropLast (lastc :: after)
        | none => none

/-- Matcher for `columnRefRegex` `(ident)\.(ident)(?!\s*\()`
(db2sql.config.ts:394); the payload is the two captures. -/
def tryColumnRef (_ : Option Char) (l : Str) : Option (Nat × (Str × Str)) :=
  match l with
  | c :: _ =>
      if isIdentChar c then
        let id1 := takeIdent l
        let r := l.drop id1.length
        if r.head? = some '.' then
          let r2 := r.drop 1
          match r2 with
          | d :: _ =>
              if isIdentChar d then
                let id2full := takeIdent r2
                match shrinkNoParen id2full.length id2full (r2.drop id2full.length) with
                | some id2 => some (id1.length + 1 + id2.length, (id1, id2))
                | none => none
              else none
          | [] => none
        else none
      else none
  | [] => none

/-- Find a CTE by (upper-cased) name. -/
def findCTEByName (ctes : List ParsedCTEWithContext) (x : Str) : Option ParsedCTEWithContext :=
  ctes.find? (fun c => c.name == x)

/-- The "Unknown column ... in CTE ..." diagnostic (db2sql.config.ts:424, 502). -/
def mkUnknownColCTE (text : Str) (idx : Nat) (raw1 raw2 : Str)
    (cte : ParsedCTEWithContext) : DB2SQLDiagnostic :=
  let p := getPositionFromOffset text (idx + raw1.length + 1)
  ⟨p.1, p.2, p.1, p.2 + raw2.length,
    str "Unknown column \"" ++ raw2 ++ str "\" in CTE \"" ++ cte.name ++
      str "\". Available columns: " ++ joinComma (cte.columns.map (·.name)), .warning⟩

/-- `\s+(?:AS\s+)?ALIAS\b` tail of the dynamic alias regex
(db2sql.config.ts:476): try the `AS` branch first, then without it.
The alias is matched case-insensitively and must end at a `\b`. -/
def aliasTail (aliasU : Str) (t : Str) : Bool :=
  let w := countWS t
  if 1 ≤ w then
    let t2 := t.drop w
    let lit : Str → Bool := fun u =>
      startsWithCIU aliasU u &&
        ((match aliasU.getLast? with | some c => isJsWord c | none => false) ≠
         (match (u.drop aliasU.length).head? with | some c => isJsWord c | none => false))
    let withAs : Bool :=
      startsWithCIU (str "AS") t2 && 1 ≤ countWS (t2.drop 2) &&
        lit ((t2.drop 2).drop (countWS (t2.drop 2)))
    withAs || lit t2
  else false

/-- Matcher for the dynamic alias regex
`(?:FROM|JOIN)\s+(dotted)\s+(?:AS\s+)?ALIAS\b` (db2sql.config.ts:476);
the payload is the captured table name.  The greedy dotted capture
backtracks by dropping its optional `.ident` part. -/
def tryAliasDef (aliasU : Str) (_ : Option Char) (l : Str) : Option Str :=
  let kwLen : Option Nat :=
    if startsWithCIU (str "FROM") l then some 4
    else if startsWithCIU (str "JOIN") l then some 4 else none
  match kwLen with
  | some k =>
      let r := l.drop k
      let w := countWS r
      if 1 ≤ w then
        match matchDottedIdentFull (r.drop w) with
        | some cap =>
            if aliasTail aliasU ((r.drop w).drop cap.length) then some cap
            else
              let base := takeIdent (r.drop w)
              if base.length < cap.length ∧ aliasTail aliasU ((r.drop w).drop base.length)
              then some base else none
        | none => none
      else none
  | none => none

/-- Column check through a concrete table (`foundTable`) with optional
columns (db2sql.config.ts:522-541). -/
def checkTableColumns (text : Str) (idx : Nat) (raw1 raw2 columnName : Str)
    (ft : Option DB2Table) : List DB2SQLDiagnostic :=
  match ft with
  | some t =>
      match t.columns with
      | some cols =>
          if cols.any (fun c => upperStr c.name == columnName) then []
          else
            let p := getPositionFromOffset text (idx + raw1.length + 1)
            [⟨p.1, p.2, p.1, p.2 + raw2.length,
              str "Unknown column \"" ++ raw2 ++ str "\" in table \"" ++ t.name ++ str "\"",
              .warning⟩]
      | none => []
  | none => []

/-- Processing of one `qualifier.column` match (db2sql.config.ts:395-542):
skip when the column part names a table; otherwise resolve the qualifier
as a CTE, then as a table, then as an alias scoped to the enclosing CTE
body (or the main query after all CTEs). -/
def processColumnRef (text : Str) (allTables : List DB2Table) (tableNames : List Str)
    (parsedCTEs : List ParsedCTEWithContext) (lastCteEnd : Nat)
    (m : Nat × (Str × Str)) : List DB2SQLDiagnostic :=
  let idx := m.1
  let raw1 := m.2.1
  let raw2 := m.2.2
  let tableOrAlias := upperStr raw1
  let columnName := upperStr raw2
  if elemStr columnName tableNames then []
  else
    match findCTEByName parsedCTEs tableOrAlias with
    | some cte =>
        if cte.columns.any (fun c => c.name == columnName) then []
        else [mkUnknownColCTE text idx raw1 raw2 cte]
    | none =>
        let foundTable0 := allTables.find? (fun t =>
          upperStr t.name == tableOrAlias ||
          (match optNonEmpty t.schema with
           | some s => upperStr (s ++ '.' :: t.name) == tableOrAlias
           | none => false))
        let scopeText :=
          match parsedCTEs.find? (fun c =>
              decide (c.bodyStartOffset ≤ idx) && decide (idx ≤ c.bodyEndOffset)) with
          | some c => jsSubstring text c.bodyStartOffset c.bodyEndOffset
          | none => text
        let scopeText :=
          if scopeText = text ∧ parsedCTEs ≠ [] ∧ idx > lastCteEnd
          then jsSubstringFrom text lastCteEnd else scopeText
        match firstMatch (tryAliasDef tableOrAlias) scopeText with
        | some (_, capRaw) =>
            let aliasedTableName := upperStr capRaw
            let aliasedShortName := shortNameOf aliasedTableName
            match parsedCTEs.find? (fun c =>
                c.name == aliasedShortName || c.name == aliasedTableName) with
            | some acte =>
                if acte.columns.any (fun c => c.name == columnName) then []
                else [mkUnknownColCTE text idx raw1 raw2 acte]
            | none =>
                let foundTable :=
                  match allTables.find? (fun t => upperStr t.name == aliasedShortName) with
                  | some t => some t
                  | none => foundTable0
                checkTableColumns text idx raw1 raw2 columnName foundTable
        | none => checkTableColumns text idx raw1 raw2 columnName foundTable0

/-! ## Unqualified-column validation (db2sql.config.ts:544-994) -/

/-- The keyword skip-list `sqlKeywords` (db2sql.config.ts:122). -/
def sqlKeywords : List Str :=
  [str "SELECT", str "FROM", str "WHERE", str "AND", str "OR", str "AS", str "ON",
   str "JOIN", str "LEFT", str "RIGHT", str "INNER", str "OUTER", str "FULL",
   str "CROSS", str "GROUP", str "BY", str "ORDER", str "HAVING", str "UNION",
   str "EXCEPT", str "INTERSECT", str "CASE", str "WHEN", str "THEN", str "ELSE",
   str "END", str "NULL", str "NOT", str "IN", str "BETWEEN", str "LIKE",
   str "EXISTS", str "IS", str "TRUE", str "FALSE", str "DISTINCT", str "ALL",
   str "ASC", str "DESC", str "FETCH", str "FIRST", str "ROWS", str "ONLY",
   str "LIMIT", str "OFFSET", str "MAX", str "MIN", str "SUM", str "AVG",
   str "COUNT", str "CAST", str "COALESCE", str "NULLIF", str "TRIM", str "UPPER",
   str "LOWER", str "SUBSTRING", str "SUBSTR", str "LENGTH", str "CONCAT",
   str "DATE", str "TIME", str "TIMESTAMP", str "CHAR", str "VARCHAR",
   str "INTEGER", str "DECIMAL", str "NUMERIC", str "DIGITS", str "FLOAT",
   str "DOUBLE", str "REAL", str "SMALLINT", str "BIGINT", str "CLOB", str "BLOB",
   str "DBCLOB", str "DECFLOAT", str "XML", str "BOOLEAN", str "TIMESTAMPDIFF",
   str "LPAD", str "RPAD", str "ROW_NUMBER", str "OVER", str "PARTITION",
   str "LAG", str "LEAD", str "RANK", str "DENSE_RANK", str "NTILE", str "VALUES",
   str "INSERT", str "UPDATE", str "DELETE", str "SET", str "INTO", str "CREATE",
   str "ALTER", str "DROP", str "TABLE", str "VIEW", str "INDEX", str "WITH",
   str "RECURSIVE"]

/-- `\bSELECT\s+\*` test (db2sql.config.ts:650). -/
def hasSelectStar (body : Str) : Bool :=
  (firstMatch (fun prev l =>
    if boundaryBefore prev && startsWithCIU (str "SELECT") l &&
       1 ≤ countWS (l.drop 6) && ((l.drop 6).drop (countWS (l.drop 6))).head? = some '*'
    then some () else none) body).isSome

/-- Matcher for `wildcardRegex` (db2sql.config.ts:654): a dotted-or-plain
identifier (identifier-class look-behind) followed by `.*`; the greedy
optional `.ident` part backtracks against the required `.*`. -/
def tryWildcard (prev : Option Char) (l : Str) : Option (Nat × Str) :=
  if (match prev with | none => true | some c => !(isIdentChar c)) then
    match l with
    | c :: _ =>
        if isIdentStart c then
          let a := takeIdent l
          let r := l.drop a.length
          let dotted : Option (Nat × Str) :=
            if r.head? = some '.' then
              match r.drop 1 with
              | d :: _ =>
                  if isIdentStart d then
                    let b := takeIdent (r.drop 1)
                    let r2 := (r.drop 1).drop b.length
                    if r2.head? = some '.' ∧ (r2.drop 1).head? = some '*' then
                      some (a.length + 1 + b.length + 2, a ++ '.' :: b)
                    else none
                  else none
              | [] => none
            else none
          match dotted with
          | some x => some x
          | none =>
              if r.head? = some '.' ∧ (r.drop 1).head? = some '*' then
                some (a.length + 2, a)
              else none
        else none
    | [] => none
  else none

/-- The alias-capture stop keywords (db2sql.config.ts:663); all end in a
word character, so their `\b` holds exactly when the next character is
not a word character. -/
def aliasStopKeywords : List Str :=
  [str "ON", str "WHERE", str "JOIN", str "LEFT", str "RIGHT", str "INNER",
   str "OUTER", str "CROSS", str "FULL", str "AND", str "OR", str "GROUP",
   str "ORDER", str "HAVING", str "UNION", str "LIMIT", str "FETCH"]

/-- The negative look-ahead `(?!(?:ON|WHERE|...)\b)`. -/
def isStopKw (t : Str) : Bool :=
  aliasStopKeywords.any (fun kw =>
    startsWithCIU kw t &&
      !(match (t.drop kw.length).head? with | some c => isJsWord c | none => false))

/-- Matcher for `cteFromJoinRegex` (db2sql.config.ts:663) and
`tableAliasRegex` (line 1999, `useLookahead = false`):
`(?:FROM|JOIN)\s+(dotted)(?:\s+(?:AS\s+)?(?!kw\b)(ident))?`.  The
optional alias group tries its `AS` branch first, then without `AS`,
then is dropped.  The payload is the table capture and optional alias. -/
def tryFromJoinAlias (useLookahead : Bool) (_ : Option Char) (l : Str) :
    Option (Nat × (Str × Option Str)) :=
  let kwLen : Option Nat :=
    if startsWithCIU (str "FROM") l then some 4
    else if startsWithCIU (str "JOIN") l then some 4 else none
  match kwLen with
  | some k =>
      let r := l.drop k
      let w := countWS r
      if 1 ≤ w then
        match matchDottedIdentFull (r.drop w) with
        | some cap =>
            let base := k + w + cap.length
            let t := (r.drop w).drop cap.length
            let w2 := countWS t
            let aliasPart : Option (Nat × Str) :=
              if 1 ≤ w2 then
                let t2 := t.drop w2
                let pathAs : Option (Nat × Str) :=
                  if startsWithCIU (str "AS") t2 ∧ 1 ≤ countWS (t2.drop 2) then
                    let w3 := countWS (t2.drop 2)
                    let t3 := (t2.drop 2).drop w3
                    if !useLookahead || !(isStopKw t3) then
                      match t3 with
                      | c :: _ =>
                          if isIdentStart c then some (w2 + 2 + w3 + (takeIdent t3).length, takeIdent t3)
                          else none
                      | [] => none
                    else none
                  else none
                match pathAs with
                | some x => some x
                | none =>
                    if !useLookahead || !(isStopKw t2) then
                      match t2 with
                      | c :: _ =>
                          if isIdentStart c then some (w2 + (takeIdent t2).length, takeIdent t2)
                          else none
                      | [] => none
                    else none
              else none
            match aliasPart with
            | some (extra, al) => some (base + extra, (cap, some al))
            | none => some (base, (cap, none))
        | none => none
      else none
  | none => none

/-- Alias → table maps are JavaScript objects written by unconditional
assignment; modelled as newest-first association lists. -/
abbrev AliasMap := List (Str × Str)

/-- Assignment `m[k] = v`. -/
def amSet (m : AliasMap) (k v : Str) : AliasMap := (k, v) :: m

/-- Lookup `m[k]` (newest assignment wins). -/
def amGet (m : AliasMap) (k : Str) : Option Str :=
  (m.find? (fun p => p.1 == k)).map (·.2)

/-- The alias map of a CTE body (db2sql.config.ts:661-675): alias →
table, short name → table, full name → table, all upper-cased, every
assignment unconditional. -/
def aliasMapForBody (body : Str) : AliasMap :=
  (scanAll (tryFromJoinAlias true) body).foldl
    (fun m e =>
      let tbl := upperStr e.2.1
      let m1 := match e.2.2 with
        | some al => amSet m (upperStr al) tbl
        | none => m
      amSet (amSet m1 (shortNameOf tbl) tbl) tbl tbl)
    []

/-- First table matching a short name or a schema-qualified full name,
then its column check (db2sql.config.ts:682-696 and 707-721). -/
def tableHasColumn (allTables : List DB2Table) (ref short col : Str) : Bool :=
  match allTables.find? (fun t =>
      upperStr t.name == short ||
      (match optNonEmpty t.schema with
       | some s => upperStr (s ++ '.' :: t.name) == ref
       | none => false)) with
  | some t =>
      match t.columns with
      | some cols => cols.any (fun c => upperStr c.name == col)
      | none => false
  | none => false

/-- Whether a referenced CTE provides a column: directly, via `SELECT *`
over its source tables, or via `table.*` wildcards resolved through its
alias map (db2sql.config.ts:637-726 and 888-972). -/
def refCteProvidesCol (text : Str) (allTables : List DB2Table)
    (refCTE : ParsedCTEWithContext) (col : Str) : Bool :=
  if refCTE.columns.any (fun c => c.name == col) then true
  else
    let body := jsSubstring text refCTE.bodyStartOffset refCTE.bodyEndOffset
    let wilds := (scanAll tryWildcard body).map (fun m => upperStr m.2)
    let amap := aliasMapForBody body
    if hasSelectStar body then
      refCTE.fromTables.any (fun srcTbl =>
        tableHasColumn allTables srcTbl (shortNameOf srcTbl) col)
    else if wilds ≠ [] then
      wilds.any (fun wc =>
        let resolved := (amGet amap wc).getD wc
        tableHasColumn allTables resolved (shortNameOf resolved) col)
    else false

/-- Matcher for `identifierPattern` (db2sql.config.ts:612): an identifier
with an identifier-class look-behind (the trailing look-ahead is implied
by the greedy match). -/
def tryIdentifier (prev : Option Char) (l : Str) : Option (Nat × Str) :=
  if (match prev with | none => true | some c => !(isIdentChar c)) then
    match l with
    | c :: _ =>
        if isIdentStart c then
          let id := takeIdent l
          some (id.length, id)
        else none
    | [] => none
  else none

/-- One entry of the column-expression lists of the unqualified checks
(db2sql.config.ts:573, 821). -/
structure ColExpr where
  expr : Str
  untrimmed : Str
  offset : Nat
deriving DecidableEq, Repr

/-- The projection split of the CTE-body unqualified check
(db2sql.config.ts:579-597): pushes unconditionally at top-level commas,
and the final segment when its trim is non-blank. -/
def splitColExprsVGo (selectStartOffset : Nat) :
    Str → Nat → Str → Nat → Int → Bool → List ColExpr → List ColExpr
  | [], _, cur, off, _, _, acc =>
      if jsTrim cur ≠ [] then acc ++ [⟨jsTrim cur, cur, off⟩] else acc
  | c :: rest, si, cur, off, depth, inStr, acc =>
      if c = '\'' ∧ !inStr then splitColExprsVGo selectStartOffset rest (si + 1) (cur ++ [c]) off depth true acc
      else if c = '\'' ∧ inStr then splitColExprsVGo selectStartOffset rest (si + 1) (cur ++ [c]) off depth false acc
      else if !inStr then
        if c = '(' then splitColExprsVGo selectStartOffset rest (si + 1) (cur ++ [c]) off (depth + 1) inStr acc
        else if c = ')' then splitColExprsVGo selectStartOffset rest (si + 1) (cur ++ [c]) off (depth - 1) inStr acc
        else if c = ',' ∧ depth = 0 then
          splitColExprsVGo selectStartOffset rest (si + 1) [] (selectStartOffset + si + 1) depth inStr
            (acc ++ [⟨jsTrim cur, cur, off⟩])
        else splitColExprsVGo selectStartOffset rest (si + 1) (cur ++ [c]) off depth inStr acc
      else splitColExprsVGo selectStartOffset rest (si + 1) (cur ++ [c]) off depth inStr acc

/-- Projection split with offsets, CTE-body variant. -/
def splitColExprsV (selectClause : Str) (selectStartOffset : Nat) : List ColExpr :=
  splitColExprsVGo selectStartOffset selectClause 0 [] selectStartOffset 0 false []

/-- The projection split of the main-query unqualified check
(db2sql.config.ts:827-848): as the CTE variant, but comma-time pushes
are skipped when the segment trims to blank. -/
def splitColExprsMGo (selectStartOffset : Nat) :
    Str → Nat → Str → Nat → Int → Bool → List ColExpr → List ColExpr
  | [], _, cur, off, _, _, acc =>
      if jsTrim cur ≠ [] then acc ++ [⟨jsTrim cur, cur, off⟩] else acc
  | c :: rest, si, cur, off, depth, inStr, acc =>
      if c = '\'' ∧ !inStr then splitColExprsMGo selectStartOffset rest (si + 1) (cur ++ [c]) off depth true acc
      else if c = '\'' ∧ inStr then splitColExprsMGo selectStartOffset rest (si + 1) (cur ++ [c]) off depth false acc
      else if !inStr then
        if c = '(' then splitColExprsMGo selectStartOffset rest (si + 1) (cur ++ [c]) off (depth + 1) inStr acc
        else if c = ')' then splitColExprsMGo selectStartOffset rest (si + 1) (cur ++ [c]) off (depth - 1) inStr acc
        else if c = ',' ∧ depth = 0 then
          splitColExprsMGo selectStartOffset rest (si + 1) [] (selectStartOffset + si + 1) depth inStr
            (if jsTrim cur ≠ [] then acc ++ [⟨jsTrim cur, cur, off⟩] else acc)
        else splitColExprsMGo selectStartOffset rest (si + 1) (cur ++ [c]) off depth inStr acc
      else splitColExprsMGo selectStartOffset rest (si + 1) (cur ++ [c]) off depth inStr acc

/-- Projection split with offsets, main-query variant. -/
def splitColExprsM (selectClause : Str) (selectStartOffset : Nat) : List ColExpr :=
  splitColExprsMGo selectStartOffset selectClause 0 [] selectStartOffset 0 false []

/-- Unqualified-identifier diagnostics for one projection expression of a
CTE body (db2sql.config.ts:600-780). -/
def unqualIdentDiagsCTE (text : Str) (allTables : List DB2Table)
    (parsedCTEs referenced : List ParsedCTEWithContext)
    (currentCTE : ParsedCTEWithContext) (ce : ColExpr) : List DB2SQLDiagnostic :=
  let colExpr := stripCommentsAndStrings ce.expr
  let exprToCheck :=
    match matchAsAlias true colExpr with
    | some (left, _) => jsTrim left
    | none => colExpr
  if (match exprToCheck.head? with
      | some c => c = '\'' || isDigit09 c
      | none => false) || exprToCheck = str "*" then []
  else
    ((scanAll tryIdentifier exprToCheck).map fun m =>
      let potentialCol := upperStr m.2
      let matchIndex := m.1
      if elemStr potentialCol sqlKeywords then []
      else
        let afterMatch := exprToCheck.drop (matchIndex + m.2.length)
        if lookParen afterMatch then []
        else if matchIndex > 0 ∧ exprToCheck.getD (matchIndex - 1) ' ' = '.' then []
        else if (afterMatch.drop (countWS afterMatch)).head? = some '.' then []
        else
          let foundInCTE := referenced.any (fun rc => refCteProvidesCol text allTables rc potentialCol)
          let foundInTable := currentCTE.fromTables.any (fun ft =>
            if parsedCTEs.any (fun c => c.name == ft) then false
            else
              match allTables.find? (fun t => upperStr t.name == shortNameOf ft) with
              | some t =>
                  match t.columns with
                  | some cols => cols.any (fun c => upperStr c.name == potentialCol)
                  | none => false
              | none => false)
          if foundInCTE || foundInTable then []
          else
            let contentStart := (indexOfSub ce.untrimmed ce.expr).getD 0
            let exprOffset := ce.offset + (if contentStart > 0 then contentStart else 0) + matchIndex
            let p := getPositionFromOffset text exprOffset
            [⟨p.1, p.2, p.1, p.2 + potentialCol.length,
              str "Unknown column \"" ++ m.2 ++ str "\". Available columns from CTEs: " ++
                joinComma (referenced.map (fun c => joinComma (c.columns.map (·.name)))),
              .warning⟩]).flatten

/-- The CTE-body unqualified-column check (db2sql.config.ts:544-784). -/
def cteUnqualifiedDiags (text : Str) (allTables : List DB2Table)
    (parsedCTEs : List ParsedCTEWithContext) : List DB2SQLDiagnostic :=
  (parsedCTEs.map fun currentCTE =>
    let cteBody := jsSubstring text currentCTE.bodyStartOffset currentCTE.bodyEndOffset
    let referenced := currentCTE.fromTables.filterMap
      (fun ft => parsedCTEs.find? (fun c => c.name == ft))
    if referenced = [] then []
    else
      match firstMatch (fun p l => trySelectClause false lookFromWs p l) cteBody with
      | none => []
      | some (selIdx, (mlen, (_, selectClause))) =>
          let match0 := (cteBody.drop selIdx).take mlen
          let selectKeywordPos := (indexOfSub cteBody match0).getD 0
          let selectStartOffset :=
            currentCTE.bodyStartOffset + selectKeywordPos + (mlen - selectClause.length)
          ((splitColExprsV selectClause selectStartOffset).map
            (unqualIdentDiagsCTE text allTables parsedCTEs referenced currentCTE)).flatten).flatten

/-- Matcher for `mainFromMatch` `FROM\s+(identStart ident*)`
(db2sql.config.ts:806). -/
def tryMainFrom (_ : Option Char) (l : Str) : Option Str :=
  if startsWithCIU (str "FROM") l then
    let r := l.drop 4
    let w := countWS r
    if 1 ≤ w then
      match r.drop w with
      | c :: _ => if isIdentStart c then some (takeIdent (r.drop w)) else none
      | [] => none
    else none
  else none

/-- `\bAS\b` test (db2sql.config.ts:860). -/
def testWordAS (s : Str) : Bool :=
  (firstMatch (fun prev l =>
    if boundaryBefore prev && startsWithCIU (str "AS") l &&
       !(match (l.drop 2).head? with | some c => isJsWord c | none => false)
    then some () else none) s).isSome

/-- Anchored `^identStart ident*\.\*$` (db2sql.config.ts:857). -/
def isIdentDotStar (e : Str) : Bool :=
  match e with
  | c :: _ =>
      isIdentStart c &&
        (let a := takeIdent e
         e.drop a.length = str ".*")
  | [] => false

/-- Unqualified-identifier diagnostics for one projection expression of
the main query (db2sql.config.ts:851-990). -/
def unqualIdentDiagsMain (text : Str) (allTables : List DB2Table)
    (mainReferenced : List ParsedCTEWithContext) (c0 : ParsedCTEWithContext)
    (ce : ColExpr) : List DB2SQLDiagnostic :=
  let e0 := stripCommentsAndStrings ce.expr
  if jsTrim e0 = str "*" then []
  else if isIdentDotStar (jsTrim e0) then []
  else
    let exprToCheck :=
      if testWordAS e0 then
        match matchAsAlias false e0 with
        | some (left, _) => left
        | none => e0
      else e0
    ((scanAll tryIdentifier exprToCheck).map fun m =>
      let potentialCol := upperStr m.2
      let matchIndex := m.1
      if elemStr potentialCol sqlKeywords then []
      else
        let afterMatch := exprToCheck.drop (matchIndex + m.2.length)
        if lookParen afterMatch then []
        else if matchIndex > 0 ∧ exprToCheck.getD (matchIndex - 1) ' ' = '.' then []
        else if (afterMatch.drop (countWS afterMatch)).head? = some '.' then []
        else
          let found := mainReferenced.any (fun rc => refCteProvidesCol text allTables rc potentialCol)
          if found then []
          else
            let contentStart := (indexOfSub ce.untrimmed ce.expr).getD 0
            let exprOffset := ce.offset + (if contentStart > 0 then contentStart else 0) + matchIndex
            let p := getPositionFromOffset text exprOffset
            [⟨p.1, p.2, p.1, p.2 + potentialCol.length,
              str "Unknown column \"" ++ m.2 ++ str "\". Available columns from CTE \"" ++
                c0.name ++ str "\": " ++ joinComma (c0.columns.map (·.name)),
              .warning⟩]).flatten

/-- The main-query unqualified-column check (db2sql.config.ts:786-994),
run only when at least one CTE was parsed. -/
def mainUnqualifiedDiags (text : Str) (allTables : List DB2Table)
    (parsedCTEs : List ParsedCTEWithContext) (lastCteEnd : Nat) : List DB2SQLDiagnostic :=
  if parsedCTEs = [] then []
  else
    let mainQueryText := jsSubstringFrom text lastCteEnd
    match firstMatch (fun p l => trySelectClause false lookFromWs p l) mainQueryText with
    | none => []
    | some (selIdx, (mlen, (_, clause))) =>
        let match0 := (mainQueryText.drop selIdx).take mlen
        let mainSelectOffset :=
          lastCteEnd + (indexOfSub mainQueryText match0).getD 0 + (mlen - clause.length)
        let mainReferenced :=
          match firstMatch tryMainFrom mainQueryText with
          | some (_, t) =>
              match parsedCTEs.find? (fun c => c.name == upperStr t) with
              | some c => [c]
              | none => []
          | none => []
        match mainReferenced with
        | [] => []
        | c0 :: _ =>
            ((splitColExprsM clause mainSelectOffset).map
              (unqualIdentDiagsMain text allTables mainReferenced c0)).flatten

/-- Translation of `validateDB2SQL` (db2sql.config.ts:114): the
structural checks in source order, then — only when a schema
configuration is supplied — the unknown-table, qualified-column and
unqualified-column checks. -/
def validateDB2SQL (text : Str) (schemaConfig : Option DB2SchemaConfig) :
    List DB2SQLDiagnostic :=
  let structural :=
    unclosedStringDiags text ++ trailingCommaDiags text ++ parenDiags text ++
    emptySelectDiags text ++ dupCommaDiags text ++ missingCommaDiags text ++
    incompleteDotDiags text
  let cteNames := cteNamesOf text
  let parsedCTEs := parseCTEs text
  match schemaConfig with
  | none => structural
  | some cfg =>
      let allTables := getAllTablesForValidation cfg
      let tableNames := allTables.map (fun t => upperStr t.name)
      let fullTableNames := allTables.map (fun t =>
        match optNonEmpty t.schema with
        | some s => upperStr (s ++ '.' :: t.name)
        | none => upperStr t.name)
      let lastCteEnd := parsedCTEs.foldl
        (fun acc c => if c.endOffset > acc then c.endOffset else acc) 0
      structural ++
      unknownTableDiags text tableNames fullTableNames cteNames ++
      ((scanAll tryColumnRef text).map
        (processColumnRef text allTables tableNames parsedCTEs lastCteEnd)).flatten ++
      cteUnqualifiedDiags text allTables parsedCTEs ++
      mainUnqualifiedDiags text allTables parsedCTEs lastCteEnd

/-! ## `getSQLContext` (db2sql.config.ts:1956) -/

/-- Completion context kinds. -/
inductive CtxKind
  | table
  | column
  | schema
  | general
deriving DecidableEq, Repr

/-- The result record of `getSQLContext`. -/
structure SQLContext where
  context : CtxKind
  tableAlias : Option Str := none
  schemaName : Option Str := none
  referencedTables : List Str
  aliasToTable : List (Str × Str)
deriving DecidableEq, Repr

/-- The dot test `([A-Za-z0-9_#@$]+)\.\s*$` on the text before the
cursor (db2sql.config.ts:2020); the payload is the captured identifier. -/
def matchDotBefore (l : Str) : Option Str :=
  match l.reverse.dropWhile isWS with
  | '.' :: rest =>
      let id := rest.takeWhile isIdentChar
      if id ≠ [] then some id.reverse else none
  | _ => none

/-- `textBeforeCursor` with its trailing `(\S+)\s*$` match removed, when
one exists (db2sql.config.ts:2030-2033). -/
def textBeforeWordOf (l : Str) : Str :=
  let afterWs := l.reverse.dropWhile isWS
  if afterWs = [] then l
  else (afterWs.dropWhile (fun c => !(isWS c))).reverse

/-- `/(?:FROM|JOIN|INTO|UPDATE|TABLE|TRUNCATE)\s*$/i.test`
(db2sql.config.ts:2037): after stripping trailing whitespace the string
must end with one of the keywords. -/
def tableKwTest (s : Str) : Bool :=
  let t := rstrip s
  endsWithCIU t (str "FROM") || endsWithCIU t (str "JOIN") || endsWithCIU t (str "INTO") ||
  endsWithCIU t (str "UPDATE") || endsWithCIU t (str "TABLE") || endsWithCIU t (str "TRUNCATE")

/-- `/(?:SELECT|WHERE|AND|OR|ON|SET|ORDER\s+BY|GROUP\s+BY|HAVING|,)\s*$/i.test`
(db2sql.config.ts:2045). -/
def columnKwTest (s : Str) : Bool :=
  let t := rstrip s
  endsWithCIU t (str "SELECT") || endsWithCIU t (str "WHERE") || endsWithCIU t (str "AND") ||
  endsWithCIU t (str "OR") || endsWithCIU t (str "ON") || endsWithCIU t (str "SET") ||
  (endsWithCIU t (str "BY") &&
    (let r := t.reverse.drop 2
     let w := countWS r
     1 ≤ w && (startsWithCIU (str "REDRO") (r.drop w) || startsWithCIU (str "PUORG") (r.drop w)))) ||
  endsWithCIU t (str "HAVING") || t.getLast? = some ','

/-- `\bWORD\b` case-insensitive test, for keywords consisting of word
characters only. -/
def testWordCI (w : Str) (s : Str) : Bool :=
  (firstMatch (fun prev l =>
    if boundaryBefore prev && startsWithCIU w l &&
       !(match (l.drop w.length).head? with | some c => isJsWord c | none => false)
    then some () else none) s).isSome

/-- The statement slice before the cursor: the text after the last `;`
of `textUntilPosition`, or all of it (db2sql.config.ts:1989-1991). -/
def currentStatementOf (textUntil : Str) : Str :=
  match lastIndexOfChar textUntil ';' with
  | some i => jsSubstringFrom textUntil (i + 1)
  | none => textUntil

/-- Translation of `getSQLContext` (db2sql.config.ts:1956), taking the
document text and the 1-based cursor position. -/
def getSQLContext (fullText : Str) (lineNumber col : Nat) : SQLContext :=
  let textUntilPosition := textUpTo fullText lineNumber col
  let lastSemicolon := lastIndexOfChar textUntilPosition ';'
  let statementStart := match lastSemicolon with | some i => i + 1 | none => 0
  let textAfterStart := jsSubstringFrom fullText statementStart
  let fullStatement :=
    match indexOfChar textAfterStart ';' with
    | some j => jsSubstring textAfterStart 0 j
    | none => textAfterStart
  let currentStatement := currentStatementOf textUntilPosition
  let entries := scanAll (tryFromJoinAlias false) fullStatement
  let referencedTables := entries.map (fun e => upperStr e.2.1)
  let aliasToTable := entries.foldl (fun m e =>
      let tableName := upperStr e.2.1
      let m1 := match e.2.2 with
        | some al => amSet m (upperStr al) tableName
        | none => m
      let short := shortNameOf tableName
      match amGet m1 short with
      | some _ => m1
      | none => amSet m1 short tableName) []
  let textBeforeCursor := (lineContent fullText lineNumber).take (col - 1)
  match matchDotBefore textBeforeCursor with
  | some p =>
      { context := .column, tableAlias := some (upperStr p),
        referencedTables := referencedTables, aliasToTable := aliasToTable }
  | none =>
      let trimmedBeforeWord := rstrip (textBeforeWordOf textBeforeCursor)
      let trimmedStatement := rstrip currentStatement
      if tableKwTest (trimmedStatement ++ [' ']) || tableKwTest (trimmedBeforeWord ++ [' ']) then
        { context := .table, referencedTables := referencedTables, aliasToTable := aliasToTable }
      else if columnKwTest (trimmedStatement ++ [' ']) || columnKwTest (trimmedBeforeWord ++ [' ']) then
        { context := .column, referencedTables := referencedTables, aliasToTable := aliasToTable }
      else if testWordCI (str "SELECT") currentStatement &&
              !(testWordCI (str "FROM") currentStatement) then
        { context := .column, referencedTables := referencedTables, aliasToTable := aliasToTable }
      else if testWordCI (str "FROM") currentStatement &&
              !(testWordCI (str "WHERE") currentStatement) &&
              !(testWordCI (str "GROUP") currentStatement) &&
              !(testWordCI (str "ORDER") currentStatement) &&
              !(tableKwTest (trimmedBeforeWord ++ [' '])) then
        { context := .column, referencedTables := referencedTables, aliasToTable := aliasToTable }
      else
        { context := .general, referencedTables := referencedTables, aliasToTable := aliasToTable }

/-! ## Completion provider (db2sql.config.ts:2130)

The static catalogs below are imported by the provider from
`db2sql.keywords.ts`, which is not among the analyzed sources. -/

/-- Modelled from the spec: the dialect keyword catalog of the missing
`db2sql.keywords.ts` ("static keyword/function/type catalogs ... pure
data", spec §1); a representative non-empty list, since no analyzed
property depends on individual entries. -/
def SQL_KEYWORDS : List Str :=
  [str "SELECT", str "FROM", str "WHERE", str "GROUP BY", str "ORDER BY", str "HAVING"]

/-- Modelled from the spec: the DB2-for-IBM-i keyword catalog of the
missing `db2sql.keywords.ts`; representative non-empty list. -/
def DB2_IBM_I_KEYWORDS : List Str := [str "RRN", str "CURRENT SERVER"]

/-- Modelled from the spec: the IBM i 7.5 reserved-word catalog of the
missing `db2sql.keywords.ts`; representative non-empty list. -/
def IBM_I_75_KEYWORDS : List Str := [str "BOOLEAN"]

/-- Modelled from the spec: the IBM i 7.4 reserved-word catalog of the
missing `db2sql.keywords.ts`; representative non-empty list. -/
def IBM_I_74_KEYWORDS : List Str := [str "TRUNCATE"]

/-- Modelled from the spec: the IBM i 7.3 reserved-word catalog of the
missing `db2sql.keywords.ts`; representative non-empty list. -/
def IBM_I_73_KEYWORDS : List Str := [str "LIMIT"]

/-- Modelled from the spec: the QSYS2 system-service catalog of the
missing `db2sql.keywords.ts`; representative non-empty list. -/
def QSYS2_SERVICES : List Str := [str "QSYS2.ACTIVE_JOB_INFO", str "QSYS2.SYSTABLES"]

/-- Modelled from the spec: the SYSIBM catalog-name list of the missing
`db2sql.keywords.ts`; representative non-empty list. -/
def SYSIBM_CATALOG : List Str := [str "SYSIBM.SYSDUMMY1", str "SYSIBM.TABLES"]

/-- Modelled from the spec: the IBM i system-object catalog of the
missing `db2sql.keywords.ts`; representative non-empty list. -/
def IBM_I_SYSTEM_OBJECTS : List Str := [str "QSYSOPR", str "QTEMP"]

/-- Modelled from the spec: the function catalog of the missing
`db2sql.keywords.ts`; representative non-empty list. -/
def DB2_FUNCTIONS : List Str := [str "COALESCE", str "VARCHAR_FORMAT", str "TIMESTAMPDIFF"]

/-- Modelled from the spec: the data-type catalog of the missing
`db2sql.keywords.ts`; representative non-empty list. -/
def DB2_DATA_TYPES : List Str := [str "VARCHAR", str "INTEGER", str "DECIMAL"]

/-- One snippet template (db2sql.config.ts:1703). -/
structure SQLSnippet where
  label : Str
  insertText : Str
  documentation : Option Str := none
  filterText : Option Str := none
deriving DecidableEq, Repr

/-- The snippet-template catalog `SQL_SNIPPETS` (db2sql.config.ts:1703).
The source array holds several dozen entries of this shape; the first
entries are transcribed and the rest omitted — the provider only appends
them verbatim as lowest-ranked items, and no analyzed property depends on
individual entries. -/
def SQL_SNIPPETS : List SQLSnippet :=
  [{ label := str "~select-statement",
     insertText := str "SELECT ${1:columns}\nFROM ${2:table}\nWHERE ${3:condition};",
     documentation := some (str "Basic SELECT statement template"),
     filterText := some (str "select statement template") },
   { label := str "~select-all",
     insertText := str "SELECT *\nFROM ${1:table};",
     documentation := some (str "Select all columns from a table"),
     filterText := some (str "select all star") },
   { label := str "~select-top",
     insertText := str "SELECT ${1:columns}\nFROM ${2:table}\nFETCH FIRST ${3:n} ROWS ONLY;",
     documentation := some (str "Select with row limit (DB2 syntax)"),
     filterText := some (str "select top fetch first") }]

/-- A completion item as assembled by the provider.  The Monaco `range`
(derived from `getWordUntilPosition`) and the numeric `kind` /
`insertTextRules` enums are host-editor presentation data; `kindTag`
records the constructor name used, the `range` is omitted.  No analyzed
property depends on either. -/
structure CompletionItem where
  label : Str
  kindTag : Str
  insertText : Str
  detail : Option Str := none
  documentation : Option Str := none
  sortText : Option Str := none
  filterText : Option Str := none
deriving DecidableEq, Repr

/-- Translation of `getAllTables` (db2sql.config.ts:2076). -/
def getAllTables (schemaConfig : Option DB2SchemaConfig) : List DB2Table :=
  match schemaConfig with
  | none => []
  | some cfg =>
      (match cfg.tables with | some ts => ts | none => []) ++
      (match cfg.schemas with
       | some ss =>
           (ss.map fun sch =>
             (match sch.tables with | some ts => ts | none => []).map fun (t : DB2Table) =>
               { t with schema := some (match optNonEmpty t.schema with
                                        | some s => s
                                        | none => sch.name) }).flatten
       | none => [])

/-- Translation of `getColumnsForTable` (db2sql.config.ts:2106). -/
def getColumnsForTable (tableName : Str) (schemaConfig : Option DB2SchemaConfig) :
    List DB2Column :=
  match schemaConfig with
  | none => []
  | some _ =>
      let upperT := upperStr tableName
      match (getAllTables schemaConfig).find? (fun t =>
          (match optNonEmpty t.schema with
           | some s => upperStr (s ++ '.' :: t.name) == upperT
           | none => upperStr t.name == upperT) || upperStr t.name == upperT) with
      | some t => match t.columns with | some cols => cols | none => []
      | none => []

/-- `/\b(WHERE|AND|OR|ON|HAVING)\s+[^;]*$/i.test` (db2sql.config.ts:2243,
2303): one of the keywords at a word boundary, at least one following
whitespace character, and no semicolon to the end of the string. -/
def afterWhereTest (s : Str) : Bool :=
  (firstMatch (fun prev l =>
    if boundaryBefore prev &&
       [str "WHERE", str "AND", str "OR", str "ON", str "HAVING"].any (fun kw =>
         startsWithCIU kw l && 1 ≤ countWS (l.drop kw.length) &&
           !((l.drop kw.length).contains ';'))
    then some () else none) s).isSome

/-- Matcher for `/\bFROM\s+([A-Za-z_#@$][A-Za-z0-9_#@$]*)/i`
(db2sql.config.ts:2248). -/
def tryMainFromWordB (prev : Option Char) (l : Str) : Option Str :=
  if boundaryBefore prev && startsWithCIU (str "FROM") l then
    let r := l.drop 4
    let w := countWS r
    if 1 ≤ w then
      match r.drop w with
      | c :: _ => if isIdentStart c then some (takeIdent (r.drop w)) else none
      | [] => none
    else none
  else none

/-- CTE-column item of the main-query / inside-CTE blocks
(db2sql.config.ts:2258, 2318). -/
def mkCteColItem (cte : ParsedCTEWithContext) (col : ParsedCTEColumn) : CompletionItem :=
  { label := col.name, kindTag := str "Field", insertText := col.name,
    detail := some (cte.name ++ str " (CTE) | " ++
      (match col.expression with | some _ => str "Computed" | none => str "Column")),
    documentation := some (match col.expression with
      | some e => str "Expression: " ++ e
      | none => str "Column from CTE " ++ cte.name),
    sortText := some ('0' :: col.name) }

/-- CTE-name item (db2sql.config.ts:2271). -/
def mkCteNameItem (cte : ParsedCTEWithContext) : CompletionItem :=
  { label := cte.name, kindTag := str "Struct", insertText := cte.name,
    detail := some (str "CTE"),
    documentation := some (str "Type . to see columns"),
    sortText := some ('1' :: cte.name) }

/-- The main-query-after-CTEs completion block (db2sql.config.ts:2235-2286);
`some` is the early return. -/
def mainQueryCteBlock (fullText : Str) (parsedCTEs : List ParsedCTEWithContext)
    (lastEnd cursorOffset : Nat) : Option (List CompletionItem) :=
  let mainQueryText := jsSubstring fullText lastEnd cursorOffset
  let isColumnContextInMain :=
    testWordCI (str "SELECT") mainQueryText && !(testWordCI (str "FROM") mainQueryText)
  if isColumnContextInMain || afterWhereTest mainQueryText then
    match firstMatch tryMainFromWordB (jsSubstringFrom fullText lastEnd) with
    | some (_, t) =>
        match parsedCTEs.find? (fun c => c.name == upperStr t) with
        | some cte => some (cte.columns.map (mkCteColItem cte) ++ [mkCteNameItem cte])
        | none => none
    | none => none
  else none

/-- Wildcard-expanded column item of the inside-CTE block
(db2sql.config.ts:2391). -/
def mkViaStarItem (t : DB2Table) (srcCte : ParsedCTEWithContext) (col : DB2Column) :
    CompletionItem :=
  { label := col.name, kindTag := str "Field", insertText := col.name,
    detail := some (t.name ++ str " (via " ++ srcCte.name ++ str " CTE *) | " ++
      ((optNonEmpty col.dataType).getD (str "Column"))),
    documentation := some (match optNonEmpty col.description with
      | some d => d
      | none => str "Column from " ++ t.name ++ str " via CTE " ++ srcCte.name),
    sortText := some ('0' :: col.name) }

/-- Real-table column item of the inside-CTE block (db2sql.config.ts:2422). -/
def mkFromTableColItem (t : DB2Table) (col : DB2Column) : CompletionItem :=
  { label := col.name, kindTag := str "Field", insertText := col.name,
    detail := some (t.name ++ str " | " ++ ((optNonEmpty col.dataType).getD (str "Column"))),
    documentation := col.description,
    sortText := some ('0' :: col.name) }

/-- Table/CTE name item of the inside-CTE block (db2sql.config.ts:2446). -/
def mkFromNameItem (shortTblName : Str) : CompletionItem :=
  { label := shortTblName, kindTag := str "Struct", insertText := shortTblName,
    detail := some (str "Table/CTE"),
    documentation := some (str "Type . to see columns"),
    sortText := some ('1' :: shortTblName) }

/-- Wildcard expansion of a source CTE inside the inside-CTE block
(db2sql.config.ts:2330-2406): when the CTE body has `SELECT *` or
`table.*` patterns, append the wildcarded tables' columns, skipping
labels already present in the suggestion list. -/
def cteStarItems (fullText : Str) (schemaConfig : Option DB2SchemaConfig)
    (srcCte : ParsedCTEWithContext) (sugs0 : List CompletionItem) : List CompletionItem :=
  let body := jsSubstring fullText srcCte.bodyStartOffset srcCte.bodyEndOffset
  let wilds := (scanAll tryWildcard body).map (fun m => upperStr m.2)
  let amap := aliasMapForBody body
  let tablesToInclude : List Str :=
    if hasSelectStar body then srcCte.fromTables.map upperStr
    else if wilds ≠ [] then wilds.map (fun wc => (amGet amap wc).getD wc)
    else []
  if tablesToInclude ≠ [] ∧ schemaConfig.isSome then
    tablesToInclude.foldl (fun acc srcFromTable =>
      let short := shortNameOf srcFromTable
      (getAllTables schemaConfig).foldl (fun acc2 t =>
        if upperStr t.name == short ||
           (match optNonEmpty t.schema with
            | some s => upperStr (s ++ '.' :: t.name) == srcFromTable
            | none => false) then
          match t.columns with
          | some cols =>
              cols.foldl (fun acc3 col =>
                if acc3.any (fun s => s.label == col.name) then acc3
                else acc3 ++ [mkViaStarItem t srcCte col]) acc2
          | none => acc2
        else acc2) acc) sugs0
  else sugs0

/-- The inside-CTE completion block (db2sql.config.ts:2290-2458); `some`
is the early return taken when any source produced suggestions. -/
def insideCteBlock (fullText : Str) (schemaConfig : Option DB2SchemaConfig)
    (parsedCTEs : List ParsedCTEWithContext) (cte : ParsedCTEWithContext)
    (ctx : SQLContext) (cursorOffset : Nat) : Option (List CompletionItem) :=
  let beforeCursor := jsSubstring fullText cte.bodyStartOffset cursorOffset
  let isColumnContext :=
    testWordCI (str "SELECT") beforeCursor && !(testWordCI (str "FROM") beforeCursor)
  if (isColumnContext || afterWhereTest beforeCursor || ctx.context = .column) ∧
     cte.fromTables ≠ [] then
    let step := fun (acc : List CompletionItem × Bool) (ft : Str) =>
      let fromShortName := shortNameOf ft
      match parsedCTEs.find? (fun c => c.name == fromShortName || c.name == ft) with
      | some srcCte =>
          let s1 := acc.1 ++ srcCte.columns.map (mkCteColItem srcCte)
          (cteStarItems fullText schemaConfig srcCte s1, true)
      | none =>
          if !acc.2 ∧ schemaConfig.isSome then
            match (getAllTables schemaConfig).find? (fun t =>
                upperStr t.name == fromShortName ||
                (match optNonEmpty t.schema with
                 | some s => upperStr (s ++ '.' :: t.name) == ft
                 | none => false)) with
            | some t =>
                (acc.1 ++ (match t.columns with
                           | some cols => cols.map (mkFromTableColItem t)
                           | none => []), true)
            | none => acc
          else acc
    let r := cte.fromTables.foldl step ([], false)
    if r.2 then some (r.1 ++ cte.fromTables.map (fun ft => mkFromNameItem (shortNameOf ft)))
    else none
  else none

/-- CTE table item of the table-context block (db2sql.config.ts:2473). -/
def mkCteTableItem (cte : ParsedCTEWithContext) : CompletionItem :=
  { label := cte.name, kindTag := str "Struct", insertText := cte.name,
    detail := some (str "CTE"),
    documentation := some (str "Common Table Expression with " ++
      str (toString cte.columns.length) ++ str " columns"),
    sortText := some ('0' :: cte.name) }

/-- Schema table item of the table-context block (db2sql.config.ts:2491). -/
def mkTableItem (cfg : DB2SchemaConfig) (ctx : SQLContext) (t : DB2Table) : CompletionItem :=
  let displayName :=
    match optNonEmpty ctx.schemaName with
    | some _ => t.name
    | none =>
        if cfg.showSchemaPrefix = some true then
          match optNonEmpty t.schema with
          | some s => s ++ '.' :: t.name
          | none => t.name
        else t.name
  { label := displayName, kindTag := str "Class", insertText := displayName,
    detail := some ((optNonEmpty t.type).getD (str "Table")),
    documentation := t.description,
    sortText := some ('0' :: displayName) }

/-- CTE-column item of the `alias.` column context (db2sql.config.ts:2519). -/
def mkAliasCteColItem (cte : ParsedCTEWithContext) (col : ParsedCTEColumn) : CompletionItem :=
  { label := col.name, kindTag := str "Field", insertText := col.name,
    detail := some (match col.expression with
      | some e => str "Computed: " ++ e.take 30 ++ (if e.length > 30 then str "..." else [])
      | none => str "CTE column"),
    documentation := some (str "Column from CTE " ++ cte.name),
    sortText := some ('0' :: col.name) }

/-- Resolved-table column item of the `alias.` column context
(db2sql.config.ts:2543). -/
def mkResolvedColItem (col : DB2Column) : CompletionItem :=
  let base := (optNonEmpty col.dataType).getD (str "Column")
  { label := col.name, kindTag := str "Field", insertText := col.name,
    detail := some (match optNonEmpty col.description with
      | some d => base ++ str " - " ++ d
      | none => base),
    documentation := col.description,
    sortText := some ('0' :: col.name) }

/-- Table item of the schema-qualified column context (db2sql.config.ts:2562). -/
def mkSchemaTableItem (t : DB2Table) : CompletionItem :=
  { label := t.name, kindTag := str "Class", insertText := t.name,
    detail := some ((optNonEmpty t.type).getD (str "Table")),
    documentation := t.description,
    sortText := some ('0' :: t.name) }

/-- Referenced-table column item of the open column context
(db2sql.config.ts:2607). -/
def mkRefTableColItem (tableName : Str) (col : DB2Column) : CompletionItem :=
  let base := (optNonEmpty col.dataType).getD (str "Column")
  { label := col.name, kindTag := str "Field", insertText := col.name,
    detail := some (tableName ++ str " | " ++
      (match optNonEmpty col.description with
       | some d => base ++ str " - " ++ d
       | none => base)),
    documentation := col.description,
    sortText := some ('0' :: col.name) }

/-- Referenced-CTE column item of the open column context
(db2sql.config.ts:2586). -/
def mkRefCteColItem (cte : ParsedCTEWithContext) (col : ParsedCTEColumn) : CompletionItem :=
  { label := col.name, kindTag := str "Field", insertText := col.name,
    detail := some (cte.name ++ str " (CTE) | " ++
      (match col.expression with | some _ => str "Computed" | none => str "Column")),
    documentation := some (match col.expression with
      | some e => str "Expression: " ++ e
      | none => str "Column from CTE"),
    sortText := some ('0' :: col.name) }

/-- Plain table-name item of the open column context (db2sql.config.ts:2633). -/
def mkTableNameItem (t : DB2Table) : CompletionItem :=
  { label := t.name, kindTag := str "Class", insertText := t.name,
    detail := some ((optNonEmpty t.type).getD (str "Table")),
    documentation := some (str "Type . to see columns"),
    sortText := some ('1' :: t.name) }

/-- The schema-driven context block (db2sql.config.ts:2462-2646): the
returned flag is `true` when the source returns early with only these
suggestions, `false` when the catalogs are appended afterwards. -/
def schemaBlock (fullText : Str) (cfg : DB2SchemaConfig) (ctx : SQLContext) :
    List CompletionItem × Bool :=
  let allTables := getAllTables (some cfg)
  let parsedCTEs := parseCTEs fullText
  if ctx.context = .table then
    (parsedCTEs.map mkCteTableItem ++ allTables.map (mkTableItem cfg ctx), true)
  else if ctx.context = .column then
    match ctx.tableAlias with
    | some al =>
        match parsedCTEs.find? (fun c => c.name == al) with
        | some cte => (cte.columns.map (mkAliasCteColItem cte), true)
        | none =>
            let resolved := (amGet ctx.aliasToTable al).getD al
            let columns := getColumnsForTable resolved (some cfg)
            if columns ≠ [] then (columns.map mkResolvedColItem, true)
            else
              let tablesInSchema := allTables.filter (fun t =>
                match optNonEmpty t.schema with
                | some s => upperStr s == al
                | none => false)
              if tablesInSchema ≠ [] then (tablesInSchema.map mkSchemaTableItem, true)
              else ([], false)
    | none =>
        let refSugs := ctx.referencedTables.foldl (fun acc tableName =>
          match parsedCTEs.find? (fun c => c.name == upperStr tableName) with
          | some cte => acc ++ cte.columns.map (mkRefCteColItem cte)
          | none => acc ++ (getColumnsForTable tableName (some cfg)).map (mkRefTableColItem tableName)) []
        (refSugs ++ parsedCTEs.map mkCteNameItem ++ allTables.map mkTableNameItem, false)
  else ([], false)

/-- The static-catalog suffix of the suggestion list
(db2sql.config.ts:2649-2763). -/
def catalogSuggestions : List CompletionItem :=
  SQL_KEYWORDS.map (fun k =>
    { label := k, kindTag := str "Keyword", insertText := k,
      detail := some (str "SQL Keyword"), sortText := some ('2' :: k) }) ++
  DB2_IBM_I_KEYWORDS.map (fun k =>
    { label := k, kindTag := str "Keyword", insertText := k,
      detail := some (str "IBM i Keyword"), sortText := some ('2' :: k) }) ++
  (IBM_I_75_KEYWORDS ++ IBM_I_74_KEYWORDS ++ IBM_I_73_KEYWORDS).map (fun k =>
    { label := k, kindTag := str "Keyword", insertText := k,
      detail := some (str "IBM i Reserved Word"), sortText := some ('2' :: k) }) ++
  QSYS2_SERVICES.map (fun k =>
    { label := k, kindTag := str "Module", insertText := k,
      detail := some (str "QSYS2 Service"), sortText := some ('3' :: k) }) ++
  SYSIBM_CATALOG.map (fun k =>
    { label := k, kindTag := str "Module", insertText := k,
      detail := some (str "SYSIBM Catalog"), sortText := some ('3' :: k) }) ++
  IBM_I_SYSTEM_OBJECTS.map (fun k =>
    { label := k, kindTag := str "Constant", insertText := k,
      detail := some (str "IBM i System Object"), sortText := some ('3' :: k) }) ++
  DB2_FUNCTIONS.map (fun k =>
    { label := k, kindTag := str "Function", insertText := k ++ str "($0)",
      detail := some (str "DB2 Function"), sortText := some ('4' :: k) }) ++
  DB2_DATA_TYPES.map (fun k =>
    { label := k, kindTag := str "TypeParameter", insertText := k,
      detail := some (str "DB2 Data Type"), sortText := some ('5' :: k) }) ++
  SQL_SNIPPETS.map (fun s =>
    { label := s.label, kindTag := str "Snippet", insertText := s.insertText,
      detail := some (str "Snippet"), documentation := s.documentation,
      sortText := some ('6' :: s.label), filterText := s.filterText })

/-- Whether quotes before the first `--` leave the scan inside a string
(db2sql.config.ts:2149-2152). -/
def quoteParityOdd (s : Str) : Bool := (s.count '\'') % 2 = 1

/-- The line-comment suppression test (db2sql.config.ts:2146-2156): a
`--` occurs on the cursor's line before the cursor, and the quotes
before its first occurrence leave the scan outside a string. -/
def lineCommentSuppressed (textBeforeCursor : Str) : Bool :=
  match indexOfSub textBeforeCursor (str "--") with
  | some i => !(quoteParityOdd (textBeforeCursor.take i))
  | none => false

/-- The quote-aware `/*`-`*/` depth scan from document start to cursor
(db2sql.config.ts:2165-2180): pairs only, the final character is never
an opener, and the depth may go negative. -/
def blockDepthGo : Nat → Bool → Int → Str → Int
  | 0, _, d, _ => d
  | _ + 1, _, d, [] => d
  | _ + 1, _, d, [_] => d
  | fuel + 1, inStr, d, c :: c2 :: rest =>
      if c = '\'' ∧ !inStr then blockDepthGo fuel true d (c2 :: rest)
      else if c = '\'' ∧ inStr then blockDepthGo fuel false d (c2 :: rest)
      else if c = '/' ∧ c2 = '*' then blockDepthGo fuel inStr (d + 1) rest
      else if c = '*' ∧ c2 = '/' then blockDepthGo fuel inStr (d - 1) rest
      else blockDepthGo fuel inStr d (c2 :: rest)

/-- Block-comment depth of the text before the cursor. -/
def blockCommentDepth (s : Str) : Int := blockDepthGo s.length false 0 s

/-- Translation of `provideCompletionItems`
(`createDB2SQLCompletionProvider`, db2sql.config.ts:2130): the two
comment suppression checks, the CTE-aware early-return blocks, the
schema-driven block and the catalog suffix. -/
def provideCompletionItems (fullText : Str) (lineNumber col : Nat)
    (schemaConfig : Option DB2SchemaConfig) : List CompletionItem :=
  if lineCommentSuppressed ((lineContent fullText lineNumber).take (col - 1)) then []
  else if blockCommentDepth (textUpTo fullText lineNumber col) > 0 then []
  else
    let context := getSQLContext fullText lineNumber col
    let parsedCTEs := parseCTEs fullText
    let cursorOffset := (List.range (lineNumber - 1)).foldl
      (fun acc i => acc + (lineContent fullText (i + 1)).length + 1) 0 + (col - 1)
    let insideCTE := parsedCTEs.find? (fun c =>
      decide (c.bodyStartOffset ≤ cursorOffset) && decide (cursorOffset ≤ c.bodyEndOffset))
    let lastCTEEnd := parsedCTEs.foldl (fun a c => if c.endOffset > a then c.endOffset else a) 0
    let block1 :=
      if parsedCTEs ≠ [] ∧ cursorOffset > lastCTEEnd ∧ context.tableAlias = none then
        mainQueryCteBlock fullText parsedCTEs lastCTEEnd cursorOffset
      else none
    match block1 with
    | some s => s
    | none =>
        let block2 :=
          match insideCTE with
          | some cte =>
              if context.tableAlias = none then
                insideCteBlock fullText schemaConfig parsedCTEs cte context cursorOffset
              else none
          | none => none
        match block2 with
        | some s => s
        | none =>
            let pre :=
              match schemaConfig with
              | some cfg => schemaBlock fullText cfg context
              | none => ([], false)
            if pre.2 then pre.1 else pre.1 ++ catalogSuggestions

/-! ## Auxiliary definitions for the verification statements -/

/-- Case-insensitive occurrence of the four letters `WITH` anywhere in
the text ("contains the WITH keyword"). -/
def containsWITHci (text : Str) : Bool :=
  (firstMatch (fun _ l => if startsWithCIU (str "WITH") l then some () else none) text).isSome

/-- The example schema of the spec (§8):
`{tables:[{name:"EMPLOYEES", columns:[{name:"EMP_ID"},{name:"NAME"}]}]}`. -/
def sampleSchema : DB2SchemaConfig :=
  { tables := some [{ name := str "EMPLOYEES",
                      columns := some [{ name := str "EMP_ID" }, { name := str "NAME" }] }] }

set_option maxRecDepth 100000

/-! # Theorems -/

/-! ## Length preservation of the sanitizer (C4, C5) -/

theorem maskLineGo_length : ∀ (fuel : Nat) (l : Str), (maskLineGo fuel l).length = l.length
  | 0, _ => rfl
  | _ + 1, [] => rfl
  | fuel + 1, c :: rest => by
      have hsplit := congrArg List.length
        (List.takeWhile_append_dropWhile (p := (· ≠ '\n')) (l := rest))
      simp only [List.length_append] at hsplit
      simp only [maskLineGo]
      split
      · simp only [List.length_append, spaces, List.length_replicate,
          maskLineGo_length fuel, List.length_cons]
        omega
      · simp [maskLineGo_length fuel rest]

theorem maskBlockGo_length : ∀ (fuel : Nat) (l : Str), (maskBlockGo fuel l).length = l.length
  | 0, _ => rfl
  | _ + 1, [] => rfl
  | fuel + 1, c :: rest => by
      simp only [maskBlockGo]
      split
      · split
        · simp only [List.length_append, List.length_map, List.length_cons,
            maskBlockGo_length fuel, List.length_take, List.length_drop]
          omega
        · simp [maskBlockGo_length fuel rest]
      · simp [maskBlockGo_length fuel rest]

theorem maskStrGo_length : ∀ (fuel : Nat) (l : Str), (maskStrGo fuel l).length = l.length
  | 0, _ => rfl
  | _ + 1, [] => rfl
  | fuel + 1, c :: rest => by
      have hsplit := congrArg List.length
        (List.takeWhile_append_dropWhile (p := (· ≠ '\'')) (l := rest))
      simp only [List.length_append] at hsplit
      simp only [maskStrGo]
      split
      · split
        · next after heq =>
            rw [heq] at hsplit
            simp only [List.length_append, spaces, List.length_replicate,
              maskStrGo_length fuel, List.length_cons]
            simp only [List.length_cons] at hsplit
            omega
        · simp [maskStrGo_length fuel rest]
      · simp [maskStrGo_length fuel rest]

/-- C4: for every input string, the sanitizer `stripCommentsAndStrings`
returns a string of exactly the same length as its input. -/
theorem C4_sanitizer_length_preserving (expr : Str) :
    (stripCommentsAndStrings expr).length = expr.length := by
  unfold stripCommentsAndStrings maskStr maskBlock maskLine
  rw [maskStrGo_length, maskBlockGo_length, maskLineGo_length]

theorem findClose_cons_none {c : Char} {rest : Str} (h : findClose (c :: rest) = none) :
    findClose rest = none := by
  simp only [findClose] at h
  split at h
  · exact absurd h (by simp)
  · simpa using h

theorem maskBlockGo_id_of_no_close :
    ∀ (fuel : Nat) (l : Str), findClose l = none → maskBlockGo fuel l = l
  | 0, _, _ => rfl
  | _ + 1, [], _ => rfl
  | fuel + 1, c :: rest, h => by
      have hrest : findClose rest = none := findClose_cons_none h
      simp only [maskBlockGo]
      split
      · next hc =>
          have hdrop : findClose (rest.drop 1) = none := by
            cases rest with
            | nil => rfl
            | cons r rs => exact findClose_cons_none hrest
          rw [hdrop]
          simp [maskBlockGo_id_of_no_close fuel rest hrest]
      · simp [maskBlockGo_id_of_no_close fuel rest hrest]

theorem takeWhile_eq_self_of_not_mem {a : Char} :
    ∀ {l : Str}, a ∉ l → l.takeWhile (· ≠ a) = l
  | [], _ => rfl
  | c :: rest, h => by
      have hc : c ≠ a := fun hca => h (hca ▸ List.mem_cons_self c rest)
      have hrest : a ∉ rest := fun hm => h (List.mem_cons_of_mem c hm)
      rw [List.takeWhile_cons, if_pos (decide_eq_true hc)]
      rw [takeWhile_eq_self_of_not_mem hrest]

theorem dropWhile_eq_nil_of_not_mem {a : Char} :
    ∀ {l : Str}, a ∉ l → l.dropWhile (· ≠ a) = []
  | [], _ => rfl
  | c :: rest, h => by
      have hc : c ≠ a := fun hca => h (hca ▸ List.mem_cons_self c rest)
      have hrest : a ∉ rest := fun hm => h (List.mem_cons_of_mem c hm)
      rw [List.dropWhile_cons, if_pos (decide_eq_true hc)]
      exact dropWhile_eq_nil_of_not_mem hrest

/-- C5 counterexample: on the input `/*ab` — a block-comment opener with
no matching `*/` — the sanitizer returns the text unchanged; it does not
mask the characters from the opener to the end of the text with spaces. -/
theorem C5_counterexample :
    stripCommentsAndStrings (str "/*ab") = str "/*ab" ∧
    stripCommentsAndStrings (str "/*ab") ≠ str "    " := by
  constructor
  · decide
  · decide

/-- C5 (amended): an unterminated line comment is masked to the end of
the text, but a block-comment opener with no `*/` anywhere after it is
left unchanged by the sanitizer's block-comment pass — not masked to end
of text. -/
theorem C5_amended :
    (∀ l : Str, findClose l = none → maskBlock l = l) ∧
    (∀ post : Str, ('\n' : Char) ∉ post →
      maskLine ('-' :: '-' :: post) = spaces (post.length + 2)) := by
  constructor
  · intro l h
    exact maskBlockGo_id_of_no_close l.length l h
  · intro post h
    have htake : post.takeWhile (· ≠ '\n') = post := takeWhile_eq_self_of_not_mem h
    have hdrop : post.dropWhile (· ≠ '\n') = [] := dropWhile_eq_nil_of_not_mem h
    have hnil : ∀ fuel, maskLineGo fuel [] = [] := fun fuel => by cases fuel <;> rfl
    show maskLineGo (post.length + 2) ('-' :: '-' :: post) = spaces (post.length + 2)
    rw [show post.length + 2 = (post.length + 1) + 1 from rfl]
    simp only [maskLineGo, List.head?_cons]
    rw [if_pos ⟨trivial, trivial⟩]
    rw [List.takeWhile_cons, List.dropWhile_cons]
    rw [if_pos (by decide), if_pos (by decide)]
    rw [htake, hdrop, hnil]
    simp [spaces]

theorem C5_amended_witness :
    maskBlock (str "/*ab") = str "/*ab" ∧
    maskLine ('-' :: '-' :: str "ab") = spaces ((str "ab").length + 2) :=
  ⟨C5_amended.1 (str "/*ab") (by decide), C5_amended.2 (str "ab") (by decide)⟩

/-! ## `parseCTEs` (C2) -/

theorem firstMatchGo_none_mono {α β : Type} {f : Option Char → Str → Option α}
    {g : Option Char → Str → Option β}
    (hfg : ∀ prev l, g prev l = none → f prev l = none) :
    ∀ (fuel : Nat) (prev : Option Char) (i : Nat) (l : Str),
      firstMatchGo g fuel prev i l = none → firstMatchGo f fuel prev i l = none
  | 0, _, _, _, _ => rfl
  | _ + 1, _, _, [], _ => rfl
  | fuel + 1, prev, i, c :: rest, h => by
      simp only [firstMatchGo] at h ⊢
      cases hg : g prev (c :: rest) with
      | some a => rw [hg] at h; exact absurd h (by simp)
      | none =>
          rw [hg] at h
          rw [hfg prev (c :: rest) hg]
          exact firstMatchGo_none_mono hfg fuel (some c) (i + 1) rest h

theorem hasWithKeyword_eq_false_of_not_contains {text : Str}
    (h : containsWITHci text = false) : hasWithKeyword text = false := by
  unfold containsWITHci firstMatch at h
  unfold hasWithKeyword firstMatch
  have hnone : firstMatchGo
      (fun (_ : Option Char) l => if startsWithCIU (str "WITH") l then some () else none)
      text.length none 0 text = none := by
    cases hcase : firstMatchGo
        (fun (_ : Option Char) l => if startsWithCIU (str "WITH") l then some () else none)
        text.length none 0 text with
    | none => rfl
    | some v => rw [hcase] at h; simp at h
  have hmono : ∀ (prev : Option Char) (l : Str),
      (if startsWithCIU (str "WITH") l then some () else none) = (none : Option Unit) →
      (if boundaryBefore prev && startsWithCIU (str "WITH") l && 1 ≤ countWS (l.drop 4)
       then some () else none) = (none : Option Unit) := by
    intro prev l hg
    have hsw : startsWithCIU (str "WITH") l = false := by
      cases hx : startsWithCIU (str "WITH") l with
      | false => rfl
      | true => rw [if_pos hx] at hg; exact absurd hg (by simp)
    simp [hsw]
  rw [firstMatchGo_none_mono hmono text.length none 0 text hnone]
  rfl

/-- C2: `parseCTEs` on `WITH A AS (SELECT X, Y FROM T)` yields exactly
one parsed subquery, named `A`, with columns `X`, `Y` in that order and
`fromTables = [T]`; and on every text containing no `WITH` keyword it
yields the empty list. -/
theorem C2_parseCTEs :
    ((parseCTEs (str "WITH A AS (SELECT X, Y FROM T)")).map
      (fun c => (c.name, c.columns.map (·.name), c.fromTables)) =
      [(str "A", [str "X", str "Y"], [str "T"])]) ∧
    (∀ text : Str, containsWITHci text = false → parseCTEs text = []) := by
  constructor
  · decide
  · intro text h
    unfold parseCTEs
    rw [hasWithKeyword_eq_false_of_not_contains h]
    simp

theorem C2_parseCTEs_witness : parseCTEs (str "SELECT X FROM T") = [] :=
  C2_parseCTEs.2 (str "SELECT X FROM T") (by decide)

/-! ## Schema validation examples (C1, C8) -/

/-- C1: on `WITH A AS (SELECT EMP_ID FROM EMPLOYEES) SELECT A.NAME FROM A`
with the sample schema, `validateDB2SQL` returns exactly one diagnostic: a
warning on `NAME`, reporting it unknown in CTE `A` and listing `A`'s
available columns (`EMP_ID`) — the qualifier `A` resolves to the declared
subquery before any schema table. -/
theorem C1_cte_column_resolution :
    validateDB2SQL (str "WITH A AS (SELECT EMP_ID FROM EMPLOYEES) SELECT A.NAME FROM A")
      (some sampleSchema) =
    [⟨1, 51, 1, 55,
      str "Unknown column \"NAME\" in CTE \"A\". Available columns: EMP_ID",
      DB2Severity.warning⟩] := by
  decide

/-- C8: with the sample schema, `SELECT * FROM DEPTS` yields exactly one
warning naming `DEPTS` as an unknown table; `SELECT * FROM EMPLOYEES`
yields no diagnostics; `SELECT E.SALARY FROM EMPLOYEES E` yields exactly
one warning naming `SALARY` unknown and mentioning table `EMPLOYEES`
(the alias `E` resolved to `EMPLOYEES`). -/
theorem C8_schema_examples :
    (validateDB2SQL (str "SELECT * FROM DEPTS") (some sampleSchema) =
      [⟨1, 15, 1, 20, str "Unknown table: DEPTS", DB2Severity.warning⟩]) ∧
    (validateDB2SQL (str "SELECT * FROM EMPLOYEES") (some sampleSchema) = []) ∧
    (validateDB2SQL (str "SELECT E.SALARY FROM EMPLOYEES E") (some sampleSchema) =
      [⟨1, 10, 1, 16, str "Unknown column \"SALARY\" in table \"EMPLOYEES\"",
        DB2Severity.warning⟩]) := by
  refine ⟨by decide, by decide, by decide⟩

/-! ## The unclosed-string scan and adjacent quotes (C3) -/

/-- C3 counterexample: on `SELECT 'a''b' FROM t` — whose quotes are
balanced under a close-then-reopen reading of the adjacent pair —
`validateDB2SQL` does report an "Unclosed string literal" error, anchored
at the final quote. -/
theorem C3_counterexample :
    validateDB2SQL (str "SELECT 'a''b' FROM t") none =
      [⟨1, 13, 1, 14, str "Unclosed string literal", DB2Severity.error⟩] := by
  decide

/-- C3 (amended): in the unclosed-string scan a quote immediately
preceded by another quote does not toggle the in-string state at all (the
first of two adjacent quotes toggles, the second is ignored) — not
close-then-reopen; consequently `SELECT 'a''b' FROM t` yields exactly one
"Unclosed string literal" error. -/
theorem C3_amended :
    (∀ (ln col : Nat) (prev : Option Char) (st : UclState), prev = some '\'' →
        uclLineGo ln ['\''] col prev st = st) ∧
    (∀ (ln col : Nat) (prev : Option Char) (st : UclState),
        prev ≠ some '\'' → st.inString = false →
        uclLineGo ln ['\''] col prev st = ⟨true, ln, col⟩) ∧
    (validateDB2SQL (str "SELECT 'a''b' FROM t") none =
      [⟨1, 13, 1, 14, str "Unclosed string literal", DB2Severity.error⟩]) := by
  refine ⟨?_, ?_, by decide⟩
  · intro ln col prev st hprev
    subst hprev
    simp [uclLineGo]
  · intro ln col prev st hprev hin
    simp [uclLineGo, hprev, hin]

theorem C3_amended_witness :
    uclLineGo 0 ['\''] 5 (some '\'') ⟨false, 0, 0⟩ = ⟨false, 0, 0⟩ ∧
    uclLineGo 0 ['\''] 5 (some 'b') ⟨false, 0, 0⟩ = ⟨true, 0, 5⟩ :=
  ⟨C3_amended.1 0 5 (some '\'') ⟨false, 0, 0⟩ rfl,
   C3_amended.2.1 0 5 (some 'b') ⟨false, 0, 0⟩ (by decide) rfl⟩

/-! ## The parenthesis check (C6) -/

/-- C6: a closing parenthesis at depth 0 (outside a string) is reported
as one "unexpected closing parenthesis" error at that character and the
depth stays 0; the diagnostics of the check are the scan errors followed
by one "unclosed parenthesis" error per opener left on the stack, at its
recorded position; `SELECT * FROM (T` yields exactly one unclosed-
parenthesis error at the `(` offset, and `SELECT * FROM T)` exactly one
unexpected-closing-parenthesis error. -/
theorem C6_paren_check :
    (validateDB2SQL (str "SELECT * FROM (T") none =
      [⟨1, 15, 1, 16, str "Unclosed parenthesis", DB2Severity.error⟩]) ∧
    (validateDB2SQL (str "SELECT * FROM T)") none =
      [⟨1, 16, 1, 17, str "Unexpected closing parenthesis", DB2Severity.error⟩]) ∧
    (∀ (ln col : Nat) (st : ParenState), st.inStr = false → st.depth = 0 →
      parenLineGo ln [')'] col st =
        { st with diags := st.diags ++
            [⟨ln + 1, col + 1, ln + 1, col + 2,
              str "Unexpected closing parenthesis", DB2Severity.error⟩] }) ∧
    (∀ text : Str, parenDiags text =
      (parenLines (splitLines text) 0 ⟨false, 0, [], []⟩).diags ++
      (parenLines (splitLines text) 0 ⟨false, 0, [], []⟩).stack.map mkUnclosedParenDiag) := by
  refine ⟨by decide, by decide, ?_, fun text => rfl⟩
  intro ln col st hin hdepth
  cases st with
  | mk inStr depth stack diags =>
      simp only at hin hdepth
      subst hin hdepth
      simp [parenLineGo, parenStep]

theorem C6_paren_check_witness :
    parenLineGo 0 [')'] 5 ⟨false, 0, [], []⟩ =
      { inStr := false, depth := 0, stack := [],
        diags := [] ++ [⟨1, 6, 1, 7, str "Unexpected closing parenthesis", DB2Severity.error⟩] } :=
  C6_paren_check.2.2.1 0 5 ⟨false, 0, [], []⟩ rfl rfl

/-! ## Completion suppression in comments (C10) -/

/-- C10 counterexample: with the cursor at the end of `'--' --x` the
cursor lies inside a line comment (the `--` at offset 5 is preceded by an
even number of quotes), yet the provider returns a non-empty suggestion
list — the suppression check only inspects the first `--` of the line,
which here lies inside a string literal. -/
theorem C10_counterexample :
    ((str "'--' --x").drop 5).take 2 = str "--" ∧
    quoteParityOdd ((str "'--' --x").take 5) = false ∧
    provideCompletionItems (str "'--' --x") 1 9 none ≠ [] := by
  refine ⟨by decide, by decide, by decide⟩

/-- C10 (amended): the provider returns an empty suggestion list when the
first `--` on the cursor's line before the cursor is preceded by an even
number of single quotes, and when the quote-aware `/*`/`*/` depth counter
over the text from document start to cursor is positive; a line comment
whose `--` is not the first occurrence on the line, or a block comment
preceded by a stray `*/`, is not suppressed. -/
theorem C10_amended :
    (∀ (text : Str) (line col : Nat) (cfg : Option DB2SchemaConfig),
      lineCommentSuppressed ((lineContent text line).take (col - 1)) = true →
      provideCompletionItems text line col cfg = []) ∧
    (∀ (text : Str) (line col : Nat) (cfg : Option DB2SchemaConfig),
      blockCommentDepth (textUpTo text line col) > 0 →
      provideCompletionItems text line col cfg = []) := by
  constructor
  · intro text line col cfg h
    simp [provideCompletionItems, h]
  · intro text line col cfg h
    simp [provideCompletionItems, h]

theorem C10_amended_witness :
    provideCompletionItems (str "-- x") 1 5 none = [] ∧
    provideCompletionItems (str "/* x") 1 5 none = [] :=
  ⟨C10_amended.1 (str "-- x") 1 5 none (by decide),
   C10_amended.2 (str "/* x") 1 5 none (by decide)⟩

/-! ## The completion-context classifier (C9) -/

/-- C9 counterexample: in `UPDATE SELECT ` with the cursor at the end,
the cursor is immediately after `SELECT ` and no `FROM` occurs before it
in the statement, yet `getSQLContext` classifies the position as a table
context (the word-before-the-word heuristic sees `UPDATE`), not a column
context as the claim requires. -/
theorem C9_counterexample :
    textUpTo (str "UPDATE SELECT ") 1 15 = str "UPDATE SELECT " ∧
    (str "SELECT ") <:+ textUpTo (str "UPDATE SELECT ") 1 15 ∧
    testWordCI (str "FROM") (currentStatementOf (textUpTo (str "UPDATE SELECT ") 1 15)) = false ∧
    (getSQLContext (str "UPDATE SELECT ") 1 15).context = CtxKind.table ∧
    CtxKind.table ≠ CtxKind.column := by
  refine ⟨by decide, by decide, by decide, by decide, by decide⟩

/-! ## Severity discipline of the diagnostics (C7) -/

theorem take7_append_ne (a b : Str) (h7 : a.take 7 ≠ str "Unknown") (hlen : 7 ≤ a.length) :
    (a ++ b).take 7 ≠ str "Unknown" := by
  rw [List.take_append_eq_append_take, Nat.sub_eq_zero_of_le hlen]
  simpa using h7

theorem unclosedStringDiags_ok (text : Str) :
    ∀ d ∈ unclosedStringDiags text,
      d.severity = DB2Severity.error ∧ d.message.take 7 ≠ str "Unknown" := by
  intro d hd
  simp only [unclosedStringDiags] at hd
  split at hd
  · simp at hd
    subst hd
    refine ⟨rfl, ?_⟩
    show List.take 7 (str "Unclosed string literal") ≠ str "Unknown"
    decide
  · simp at hd

theorem trailingCommaDiags_ok (text : Str) :
    ∀ d ∈ trailingCommaDiags text,
      d.severity = DB2Severity.error ∧ d.message.take 7 ≠ str "Unknown" := by
  intro d hd
  unfold trailingCommaDiags at hd
  rcases List.mem_map.mp hd with ⟨m, _, rfl⟩
  exact ⟨rfl, take7_append_ne _ _ (by decide) (by decide)⟩

theorem parenStep_diags (ln col : Nat) (c : Char) (st : ParenState) :
    ∃ e0, (parenStep ln col c st).diags = st.diags ++ e0 ∧
      ∀ d ∈ e0, d.severity = DB2Severity.error ∧ d.message.take 7 ≠ str "Unknown" := by
  unfold parenStep
  split
  · exact ⟨[], by simp, by simp⟩
  · split
    · exact ⟨[], by simp, by simp⟩
    · split
      · split
        · exact ⟨[], by simp, by simp⟩
        · split
          · split
            · refine ⟨[⟨ln + 1, col + 1, ln + 1, col + 2,
                  str "Unexpected closing parenthesis", DB2Severity.error⟩], rfl, ?_⟩
              intro d hd
              simp at hd
              subst hd
              refine ⟨rfl, ?_⟩
              show List.take 7 (str "Unexpected closing parenthesis") ≠ str "Unknown"
              decide
            · exact ⟨[], by simp, by simp⟩
          · exact ⟨[], by simp, by simp⟩
      · exact ⟨[], by simp, by simp⟩

theorem parenLineGo_diags :
    ∀ (l : Str) (ln col : Nat) (st : ParenState),
      ∃ extra, (parenLineGo ln l col st).diags = st.diags ++ extra ∧
        ∀ d ∈ extra, d.severity = DB2Severity.error ∧ d.message.take 7 ≠ str "Unknown"
  | [], _, _, _ => ⟨[], by simp [parenLineGo], by simp⟩
  | c :: rest, ln, col, st => by
      obtain ⟨e0, he0, hok0⟩ := parenStep_diags ln col c st
      obtain ⟨e, he, hok⟩ := parenLineGo_diags rest ln (col + 1) (parenStep ln col c st)
      refine ⟨e0 ++ e, ?_, ?_⟩
      · simp only [parenLineGo]
        rw [he, he0, List.append_assoc]
      · intro d hd
        rcases List.mem_append.mp hd with h | h
        · exact hok0 d h
        · exact hok d h

theorem parenLines_diags :
    ∀ (ls : List Str) (ln : Nat) (st : ParenState),
      ∃ extra, (parenLines ls ln st).diags = st.diags ++ extra ∧
        ∀ d ∈ extra, d.severity = DB2Severity.error ∧ d.message.take 7 ≠ str "Unknown"
  | [], _, _ => ⟨[], by simp [parenLines], by simp⟩
  | l :: ls, ln, st => by
      obtain ⟨e0, he0, hok0⟩ := parenLineGo_diags l ln 0 { st with inStr := false }
      obtain ⟨e, he, hok⟩ := parenLines_diags ls (ln + 1) (parenLineGo ln l 0 { st with inStr := false })
      refine ⟨e0 ++ e, ?_, ?_⟩
      · simp only [parenLines]
        rw [he, he0]
        simp [List.append_assoc]
      · intro d hd
        rcases List.mem_append.mp hd with h | h
        · exact hok0 d h
        · exact hok d h

theorem parenDiags_ok (text : Str) :
    ∀ d ∈ parenDiags text,
      d.severity = DB2Severity.error ∧ d.message.take 7 ≠ str "Unknown" := by
  intro d hd
  unfold parenDiags at hd
  rcases List.mem_append.mp hd with h | h
  · obtain ⟨e, he, hok⟩ := parenLines_diags (splitLines text) 0 ⟨false, 0, [], []⟩
    rw [he] at h
    simp only [List.nil_append] at h
    exact hok d h
  · rcases List.mem_map.mp h with ⟨p, _, rfl⟩
    refine ⟨rfl, ?_⟩
    show List.take 7 (str "Unclosed parenthesis") ≠ str "Unknown"
    decide

theorem emptySelectDiags_ok (text : Str) :
    ∀ d ∈ emptySelectDiags text,
      d.severity = DB2Severity.error ∧ d.message.take 7 ≠ str "Unknown" := by
  intro d hd
  unfold emptySelectDiags at hd
  rcases List.mem_map.mp hd with ⟨m, _, rfl⟩
  refine ⟨rfl, ?_⟩
  show List.take 7 (str "SELECT requires at least one column or expression") ≠ str "Unknown"
  decide

theorem dupCommaDiags_ok (text : Str) :
    ∀ d ∈ dupCommaDiags text,
      d.severity = DB2Severity.error ∧ d.message.take 7 ≠ str "Unknown" := by
  intro d hd
  unfold dupCommaDiags at hd
  rcases List.mem_map.mp hd with ⟨m, _, rfl⟩
  refine ⟨rfl, ?_⟩
  show List.take 7 (str "Duplicate comma") ≠ str "Unknown"
  decide

theorem missingCommaDiags_ok (text : Str) :
    ∀ d ∈ missingCommaDiags text,
      d.severity = DB2Severity.error ∧ d.message.take 7 ≠ str "Unknown" := by
  intro d hd
  unfold missingCommaDiags at hd
  rw [List.mem_flatten] at hd
  rcases hd with ⟨inner, hinner, hd⟩
  rcases List.mem_map.mp hinner with ⟨m, _, rfl⟩
  rcases List.mem_filterMap.mp hd with ⟨mc, _, hmc⟩
  unfold missingCommaEntry at hmc
  split at hmc
  · exact absurd hmc (by simp)
  · split at hmc
    · exact absurd hmc (by simp)
    · split at hmc
      · exact absurd hmc (by simp)
      · rw [Option.some_inj] at hmc
        subst hmc
        refine ⟨rfl, ?_⟩
        refine take7_append_ne _ _ ?_ ?_
        · refine take7_append_ne _ _ ?_ ?_
          · refine take7_append_ne _ _ ?_ ?_
            · exact take7_append_ne _ _ (by decide) (by decide)
            · rw [List.length_append]
              have : 7 ≤ (str "Missing comma between \"").length := by decide
              omega
          · rw [List.length_append, List.length_append]
            have : 7 ≤ (str "Missing comma between \"").length := by decide
            omega
        · rw [List.length_append, List.length_append, List.length_append]
          have : 7 ≤ (str "Missing comma between \"").length := by decide
          omega

theorem incompleteDotDiags_ok (text : Str) :
    ∀ d ∈ incompleteDotDiags text,
      d.severity = DB2Severity.error ∧ d.message.take 7 ≠ str "Unknown" := by
  intro d hd
  unfold incompleteDotDiags at hd
  rcases List.mem_map.mp hd with ⟨m, _, rfl⟩
  refine ⟨rfl, ?_⟩
  refine take7_append_ne _ _ ?_ ?_
  · exact take7_append_ne _ _ (by decide) (by decide)
  · rw [List.length_append]
    have : 7 ≤ (str "Incomplete reference: expected column name after \"").length := by
      decide
    omega

theorem checkTableColumns_warn (text : Str) (idx : Nat) (raw1 raw2 columnName : Str)
    (ft : Option DB2Table) :
    ∀ d ∈ checkTableColumns text idx raw1 raw2 columnName ft,
      d.severity = DB2Severity.warning := by
  intro d hd
  unfold checkTableColumns at hd
  split at hd
  · split at hd
    · split at hd
      · exact absurd hd (by simp)
      · simp only [List.mem_singleton] at hd
        subst hd
        rfl
    · exact absurd hd (by simp)
  · exact absurd hd (by simp)

theorem unknownTableDiags_warn (text : Str) (tns ftns cns : List Str) :
    ∀ d ∈ unknownTableDiags text tns ftns cns, d.severity = DB2Severity.warning := by
  intro d hd
  unfold unknownTableDiags at hd
  rcases List.mem_filterMap.mp hd with ⟨m, _, hm⟩
  try simp only [] at hm
  split at hm
  · exact absurd hm (by simp)
  · rw [Option.some_inj] at hm
    subst hm
    rfl

theorem processColumnRef_warn (text : Str) (allTables : List DB2Table)
    (tableNames : List Str) (parsedCTEs : List ParsedCTEWithContext)
    (lastCteEnd : Nat) (m : Nat × (Str × Str)) :
    ∀ d ∈ processColumnRef text allTables tableNames parsedCTEs lastCteEnd m,
      d.severity = DB2Severity.warning := by
  intro d hd
  unfold processColumnRef at hd
  try simp only [] at hd
  split at hd
  · exact absurd hd (by simp)
  · split at hd
    · split at hd
      · exact absurd hd (by simp)
      · simp only [List.mem_singleton] at hd
        subst hd
        rfl
    · split at hd
      · split at hd
        · split at hd
          · exact absurd hd (by simp)
          · simp only [List.mem_singleton] at hd
            subst hd
            rfl
        · exact checkTableColumns_warn _ _ _ _ _ _ d hd
      · exact checkTableColumns_warn _ _ _ _ _ _ d hd

theorem unqualIdentDiagsCTE_warn (text : Str) (allTables : List DB2Table)
    (parsedCTEs referenced : List ParsedCTEWithContext)
    (currentCTE : ParsedCTEWithContext) (ce : ColExpr) :
    ∀ d ∈ unqualIdentDiagsCTE text allTables parsedCTEs referenced currentCTE ce,
      d.severity = DB2Severity.warning := by
  intro d hd
  unfold unqualIdentDiagsCTE at hd
  try simp only [] at hd
  split at hd
  · exact absurd hd (by simp)
  · rcases List.mem_flatten.mp hd with ⟨l1, hl1, hd⟩
    rcases List.mem_map.mp hl1 with ⟨m, _, rfl⟩
    try simp only [] at hd
    split at hd
    · exact absurd hd (by simp)
    · split at hd
      · exact absurd hd (by simp)
      · split at hd
        · exact absurd hd (by simp)
        · split at hd
          · exact absurd hd (by simp)
          · split at hd
            · exact absurd hd (by simp)
            · simp only [List.mem_singleton] at hd
              subst hd
              rfl

theorem cteUnqualifiedDiags_warn (text : Str) (allTables : List DB2Table)
    (parsedCTEs : List ParsedCTEWithContext) :
    ∀ d ∈ cteUnqualifiedDiags text allTables parsedCTEs,
      d.severity = DB2Severity.warning := by
  intro d hd
  unfold cteUnqualifiedDiags at hd
  rcases List.mem_flatten.mp hd with ⟨l1, hl1, hd⟩
  rcases List.mem_map.mp hl1 with ⟨cur, _, rfl⟩
  try simp only [] at hd
  split at hd
  · exact absurd hd (by simp)
  · split at hd
    · exact absurd hd (by simp)
    · rcases List.mem_flatten.mp hd with ⟨l2, hl2, hd⟩
      rcases List.mem_map.mp hl2 with ⟨ce, _, rfl⟩
      exact unqualIdentDiagsCTE_warn _ _ _ _ _ _ d hd

theorem unqualMainInner (text : Str) (allTables : List DB2Table)
    (mainReferenced : List ParsedCTEWithContext) (c0 : ParsedCTEWithContext)
    (ce : ColExpr) (exprToCheck : Str) :
    ∀ d ∈ ((scanAll tryIdentifier exprToCheck).map fun m =>
      let potentialCol := upperStr m.2
      let matchIndex := m.1
      if elemStr potentialCol sqlKeywords then []
      else
        let afterMatch := exprToCheck.drop (matchIndex + m.2.length)
        if lookParen afterMatch then []
        else if matchIndex > 0 ∧ exprToCheck.getD (matchIndex - 1) ' ' = '.' then []
        else if (afterMatch.drop (countWS afterMatch)).head? = some '.' then []
        else
          let found := mainReferenced.any (fun rc => refCteProvidesCol text allTables rc potentialCol)
          if found then []
          else
            let contentStart := (indexOfSub ce.untrimmed ce.expr).getD 0
            let exprOffset := ce.offset + (if contentStart > 0 then contentStart else 0) + matchIndex
            let p := getPositionFromOffset text exprOffset
            ([⟨p.1, p.2, p.1, p.2 + potentialCol.length,
              str "Unknown column \"" ++ m.2 ++ str "\". Available columns from CTE \"" ++
                c0.name ++ str "\": " ++ joinComma (c0.columns.map (·.name)),
              DB2Severity.warning⟩] : List DB2SQLDiagnostic)).flatten,
      d.severity = DB2Severity.warning := by
  intro d hd
  rcases List.mem_flatten.mp hd with ⟨l1, hl1, hd⟩
  rcases List.mem_map.mp hl1 with ⟨m, _, rfl⟩
  try simp only [] at hd
  split at hd
  · exact absurd hd (by simp)
  · split at hd
    · exact absurd hd (by simp)
    · split at hd
      · exact absurd hd (by simp)
      · split at hd
        · exact absurd hd (by simp)
        · split at hd
          · exact absurd hd (by simp)
          · simp only [List.mem_singleton] at hd
            subst hd
            rfl

theorem unqualIdentDiagsMain_warn (text : Str) (allTables : List DB2Table)
    (mainReferenced : List ParsedCTEWithContext) (c0 : ParsedCTEWithContext)
    (ce : ColExpr) :
    ∀ d ∈ unqualIdentDiagsMain text allTables mainReferenced c0 ce,
      d.severity = DB2Severity.warning := by
  intro d hd
  unfold unqualIdentDiagsMain at hd
  try simp only [] at hd
  split at hd
  · exact absurd hd (by simp)
  · split at hd
    · exact absurd hd (by simp)
    · exact unqualMainInner text allTables mainReferenced c0 ce _ d hd

theorem mainUnqualifiedDiags_warn (text : Str) (allTables : List DB2Table)
    (parsedCTEs : List ParsedCTEWithContext) (lastCteEnd : Nat) :
    ∀ d ∈ mainUnqualifiedDiags text allTables parsedCTEs lastCteEnd,
      d.severity = DB2Severity.warning := by
  intro d hd
  unfold mainUnqualifiedDiags at hd
  try simp only [] at hd
  split at hd
  · exact absurd hd (by simp)
  · split at hd
    · exact absurd hd (by simp)
    · split at hd
      · exact absurd hd (by simp)
      · rcases List.mem_flatten.mp hd with ⟨l1, hl1, hd⟩
        rcases List.mem_map.mp hl1 with ⟨ce, _, rfl⟩
        exact unqualIdentDiagsMain_warn _ _ _ _ _ d hd

/-- C7: schema-dependent checks are opt-in and non-blocking.  Without a
schema configuration `validateDB2SQL` returns exactly the structural
diagnostics; each of those has severity `error` and its message is not an
unknown-table/unknown-column finding (the first seven characters are
never "Unknown").  With any schema configuration, every diagnostic whose
message does start with "Unknown" — the unknown-table and unknown-column
findings — has severity `warning`. -/
theorem C7_severity_discipline :
    (∀ text : Str, validateDB2SQL text none =
        unclosedStringDiags text ++ trailingCommaDiags text ++ parenDiags text ++
        emptySelectDiags text ++ dupCommaDiags text ++ missingCommaDiags text ++
        incompleteDotDiags text) ∧
    (∀ text : Str, ∀ d ∈ validateDB2SQL text none,
        d.severity = DB2Severity.error ∧ d.message.take 7 ≠ str "Unknown") ∧
    (∀ (text : Str) (cfg : DB2SchemaConfig), ∀ d ∈ validateDB2SQL text (some cfg),
        d.message.take 7 = str "Unknown" → d.severity = DB2Severity.warning) := by
  refine ⟨fun text => rfl, ?_, ?_⟩
  · intro text d hd
    have hd' : d ∈ unclosedStringDiags text ++ trailingCommaDiags text ++ parenDiags text ++
        emptySelectDiags text ++ dupCommaDiags text ++ missingCommaDiags text ++
        incompleteDotDiags text := hd
    simp only [List.mem_append] at hd'
    rcases hd' with ((((((h | h) | h) | h) | h) | h) | h)
    · exact unclosedStringDiags_ok text d h
    · exact trailingCommaDiags_ok text d h
    · exact parenDiags_ok text d h
    · exact emptySelectDiags_ok text d h
    · exact dupCommaDiags_ok text d h
    · exact missingCommaDiags_ok text d h
    · exact incompleteDotDiags_ok text d h
  · intro text cfg d hd hu
    simp only [validateDB2SQL, List.mem_append] at hd
    rcases hd with ((((((((((h | h) | h) | h) | h) | h) | h) | h) | h) | h) | h)
    · exact absurd hu (unclosedStringDiags_ok text d h).2
    · exact absurd hu (trailingCommaDiags_ok text d h).2
    · exact absurd hu (parenDiags_ok text d h).2
    · exact absurd hu (emptySelectDiags_ok text d h).2
    · exact absurd hu (dupCommaDiags_ok text d h).2
    · exact absurd hu (missingCommaDiags_ok text d h).2
    · exact absurd hu (incompleteDotDiags_ok text d h).2
    · exact unknownTableDiags_warn _ _ _ _ d h
    · rcases List.mem_flatten.mp h with ⟨l1, hl1, h⟩
      rcases List.mem_map.mp hl1 with ⟨m, _, rfl⟩
      exact processColumnRef_warn _ _ _ _ _ _ d h
    · exact cteUnqualifiedDiags_warn _ _ _ d h
    · exact mainUnqualifiedDiags_warn _ _ _ _ d h

/-- Witness for C7: an unknown-table finding produced with a schema is a
warning, and the sole diagnostic of an unterminated string without a
schema is a structural error. -/
theorem C7_severity_discipline_witness :
    ((⟨1, 15, 1, 20, str "Unknown table: DEPTS", DB2Severity.warning⟩ :
        DB2SQLDiagnostic).severity = DB2Severity.warning) ∧
    ((⟨1, 8, 1, 9, str "Unclosed string literal", DB2Severity.error⟩ :
        DB2SQLDiagnostic).severity = DB2Severity.error ∧
      List.take 7 (str "Unclosed string literal") ≠ str "Unknown") :=
  ⟨C7_severity_discipline.2.2 (str "SELECT * FROM DEPTS") sampleSchema _ (by decide) (by decide),
   C7_severity_discipline.2.1 (str "SELECT 'abc") _ (by decide)⟩

theorem startsWithCIU_append : ∀ (p x r : Str),
    startsWithCIU p x = true → startsWithCIU p (x ++ r) = true := by
  intro p
  induction p with
  | nil => intro x r _; rfl
  | cons a ps ih =>
      intro x r h
      cases x with
      | nil => exact absurd h (by simp [startsWithCIU])
      | cons c cs =>
          simp only [startsWithCIU, Bool.and_eq_true] at h
          rcases h with ⟨h1, h2⟩
          rw [List.cons_append]
          show (decide (a = c.toUpper) && startsWithCIU ps (cs ++ r)) = true
          rw [h1, ih cs r h2]
          rfl

theorem startsWithCIU_ne_head (p : Char) (ps : Str) (c : Char) (cs : Str)
    (h : decide (p = c.toUpper) = false) :
    startsWithCIU (p :: ps) (c :: cs) = false := by
  unfold startsWithCIU
  rw [h]
  rfl

theorem dropWhile_append_ne (p : Char → Bool) :
    ∀ (l1 l2 : Str), List.dropWhile p l1 ≠ [] →
      List.dropWhile p (l1 ++ l2) = List.dropWhile p l1 ++ l2 := by
  intro l1
  induction l1 with
  | nil => intro l2 h; exact absurd rfl h
  | cons a t ih =>
      intro l2 h
      rw [List.cons_append, List.dropWhile_cons, List.dropWhile_cons] at *
      cases hpa : p a with
      | true =>
          rw [hpa] at h
          simp only [eq_self_iff_true, if_true] at h ⊢
          exact ih l2 h
      | false =>
          rw [hpa] at h
          simp only [Bool.false_eq_true, if_false] at h ⊢
          rfl

theorem takeWhile_append_all (p : Char → Bool) :
    ∀ (l1 l2 : Str), l1.all p = true →
      List.takeWhile p (l1 ++ l2) = l1 ++ List.takeWhile p l2 := by
  intro l1
  induction l1 with
  | nil => intro l2 _; rfl
  | cons a t ih =>
      intro l2 h
      have h' := h
      simp only [List.all_cons, Bool.and_eq_true] at h'
      rcases h' with ⟨h1, h2⟩
      rw [List.cons_append, List.takeWhile_cons, h1, if_pos rfl]
      rw [ih l2 h2, List.cons_append]

theorem rstrip_append (x w : Str) (h : List.dropWhile isWS w.reverse ≠ []) :
    rstrip (x ++ w) = x ++ (List.dropWhile isWS w.reverse).reverse := by
  unfold rstrip
  rw [List.reverse_append, dropWhile_append_ne _ _ _ h, List.reverse_append,
    List.reverse_reverse]

theorem endsWithCIU_append_of (x w : Str)
    (h : startsWithCIU w.reverse w.reverse = true) :
    endsWithCIU (x ++ w) w = true := by
  unfold endsWithCIU
  rw [List.reverse_append]
  exact startsWithCIU_append _ _ _ h

theorem tableKwTest_FROM (x : Str) :
    tableKwTest ((x ++ str "FROM") ++ [' ']) = true := by
  have h1 : (x ++ str "FROM") ++ [' '] = x ++ str "FROM " := by
    rw [List.append_assoc]
    rfl
  have h2 : rstrip (x ++ str "FROM ") = x ++ str "FROM" := by
    rw [rstrip_append x (str "FROM ") (by decide)]
    rfl
  have eF : endsWithCIU (x ++ str "FROM") (str "FROM") = true :=
    endsWithCIU_append_of x (str "FROM") (by decide)
  rw [h1]
  unfold tableKwTest
  try simp only []
  rw [h2, eF]
  rfl

theorem tableKwTest_SELECT (x : Str) :
    tableKwTest ((x ++ str "SELECT") ++ [' ']) = false := by
  have h1 : (x ++ str "SELECT") ++ [' '] = x ++ str "SELECT " := by
    rw [List.append_assoc]
    rfl
  have h2 : rstrip (x ++ str "SELECT ") = x ++ str "SELECT" := by
    rw [rstrip_append x (str "SELECT ") (by decide)]
    rfl
  have hrev : (x ++ str "SELECT").reverse = 'T' :: (str "CELES" ++ x.reverse) := by
    rw [List.reverse_append]
    rfl
  have eF : endsWithCIU (x ++ str "SELECT") (str "FROM") = false := by
    unfold endsWithCIU; rw [hrev]; exact startsWithCIU_ne_head _ _ _ _ (by decide)
  have eJ : endsWithCIU (x ++ str "SELECT") (str "JOIN") = false := by
    unfold endsWithCIU; rw [hrev]; exact startsWithCIU_ne_head _ _ _ _ (by decide)
  have eI : endsWithCIU (x ++ str "SELECT") (str "INTO") = false := by
    unfold endsWithCIU; rw [hrev]; exact startsWithCIU_ne_head _ _ _ _ (by decide)
  have eU : endsWithCIU (x ++ str "SELECT") (str "UPDATE") = false := by
    unfold endsWithCIU; rw [hrev]; exact startsWithCIU_ne_head _ _ _ _ (by decide)
  have eT : endsWithCIU (x ++ str "SELECT") (str "TABLE") = false := by
    unfold endsWithCIU; rw [hrev]; exact startsWithCIU_ne_head _ _ _ _ (by decide)
  have eR : endsWithCIU (x ++ str "SELECT") (str "TRUNCATE") = false := by
    unfold endsWithCIU; rw [hrev]; exact startsWithCIU_ne_head _ _ _ _ (by decide)
  rw [h1]
  unfold tableKwTest
  try simp only []
  rw [h2, eF, eJ, eI, eU, eT, eR]
  rfl

theorem columnKwTest_SELECT (x : Str) :
    columnKwTest ((x ++ str "SELECT") ++ [' ']) = true := by
  have h1 : (x ++ str "SELECT") ++ [' '] = x ++ str "SELECT " := by
    rw [List.append_assoc]
    rfl
  have h2 : rstrip (x ++ str "SELECT ") = x ++ str "SELECT" := by
    rw [rstrip_append x (str "SELECT ") (by decide)]
    rfl
  have eS : endsWithCIU (x ++ str "SELECT") (str "SELECT") = true :=
    endsWithCIU_append_of x (str "SELECT") (by decide)
  rw [h1]
  unfold columnKwTest
  try simp only []
  rw [h2, eS]
  rfl

theorem mdbFROM (u : Str) : matchDotBefore (u ++ str "FROM ") = none := by
  unfold matchDotBefore
  rw [List.reverse_append, dropWhile_append_ne _ _ _ (by decide)]
  rfl

theorem mdbSELECT (u : Str) : matchDotBefore (u ++ str "SELECT ") = none := by
  unfold matchDotBefore
  rw [List.reverse_append, dropWhile_append_ne _ _ _ (by decide)]
  rfl

theorem mdbDot (u id0 : Str) (hid : id0 ≠ []) (hall : id0.all isIdentChar = true)
    (hu : List.takeWhile isIdentChar u.reverse = []) :
    matchDotBefore ((u ++ id0) ++ ['.']) = some id0 := by
  unfold matchDotBefore
  have h1 : List.dropWhile isWS (((u ++ id0) ++ ['.']).reverse) =
      '.' :: ((u ++ id0).reverse) := by
    rw [List.reverse_append]
    rfl
  rw [h1]
  show (if List.takeWhile isIdentChar ((u ++ id0).reverse) ≠ [] then
          some (List.takeWhile isIdentChar ((u ++ id0).reverse)).reverse
        else none) = some id0
  have h2 : List.takeWhile isIdentChar ((u ++ id0).reverse) = id0.reverse := by
    rw [List.reverse_append]
    rw [takeWhile_append_all _ _ _ (by
      rw [List.all_eq_true] at hall ⊢
      intro c hc
      exact hall c (List.mem_reverse.mp hc))]
    rw [hu, List.append_nil]
  rw [h2]
  rw [if_pos (by simp [hid])]
  rw [List.reverse_reverse]

theorem startsWithLit_single (c x : Char) (xs : Str) :
    startsWithLit [c] (x :: xs) = decide (c = x) := by
  show (decide (c = x) && startsWithLit [] xs) = decide (c = x)
  rw [show startsWithLit [] xs = true from rfl, Bool.and_true]

theorem indexOfSub_single_spec :
    ∀ (s : Str) (c : Char) (j : Nat), indexOfSub s [c] = some j →
      ∃ a b, s = a ++ c :: b ∧ a.length = j ∧ c ∉ a := by
  intro s
  induction s with
  | nil => intro c j h; exact absurd h (by simp [indexOfSub])
  | cons x xs ih =>
      intro c j h
      have h' : (if startsWithLit [c] (x :: xs) then (some 0 : Option Nat)
                 else (indexOfSub xs [c]).map (· + 1)) = some j := h
      split at h'
      · rename_i hs
        rw [Option.some_inj] at h'
        subst h'
        have hcx : c = x := by
          rw [startsWithLit_single] at hs
          exact of_decide_eq_true hs
        exact ⟨[], xs, by rw [hcx]; rfl, rfl, by simp⟩
      · rename_i hs
        rcases Option.map_eq_some'.mp h' with ⟨j', hj', rfl⟩
        rcases ih c j' hj' with ⟨a, b, hab, hlen, hna⟩
        refine ⟨x :: a, b, by rw [hab]; rfl, by simp [hlen], ?_⟩
        have hcx : ¬(c = x) := by
          rw [startsWithLit_single] at hs
          exact of_decide_eq_false (Bool.of_not_eq_true hs)
        intro hmem
        rcases List.mem_cons.mp hmem with h1 | h1
        · exact hcx h1
        · exact hna h1

theorem lastIndexOfChar_spec (s : Str) (c : Char) (i : Nat)
    (h : lastIndexOfChar s c = some i) :
    ∃ p q, s = p ++ c :: q ∧ p.length = i ∧ c ∉ q := by
  unfold lastIndexOfChar indexOfChar at h
  rcases Option.map_eq_some'.mp h with ⟨j, hj, rfl⟩
  rcases indexOfSub_single_spec _ _ _ hj with ⟨a, b, hrev, hlen, hna⟩
  have hs : s = b.reverse ++ c :: a.reverse := by
    have h2 := congrArg List.reverse hrev
    rw [List.reverse_reverse] at h2
    rw [h2, List.reverse_append]
    simp
  have hslen : s.length = a.length + 1 + b.length := by
    rw [← List.length_reverse s, hrev]
    simp
    omega
  refine ⟨b.reverse, a.reverse, hs, ?_, by simpa using hna⟩
  rw [List.length_reverse]
  omega

theorem currentStatementOf_append (v w : Str) (hw : ';' ∉ w) :
    ∃ v', currentStatementOf (v ++ w) = v' ++ w := by
  unfold currentStatementOf
  cases h : lastIndexOfChar (v ++ w) ';' with
  | none => exact ⟨v, rfl⟩
  | some i =>
      rcases lastIndexOfChar_spec _ _ _ h with ⟨p, q, hpq, hplen, hnq⟩
      show ∃ v', jsSubstringFrom (v ++ w) (i + 1) = v' ++ w
      have hdrop : jsSubstringFrom (v ++ w) (i + 1) = q := by
        show (v ++ w).drop (i + 1) = q
        rw [hpq, ← hplen, List.drop_append_eq_append_drop]
        simp
      by_cases hle : w.length ≤ q.length
      · have hwq : w <:+ q :=
          List.suffix_of_suffix_length_le ⟨v, rfl⟩ ⟨p ++ [';'], by rw [hpq]; simp⟩ hle
        rcases hwq with ⟨r, hr⟩
        exact ⟨r, by rw [hdrop, ← hr]⟩
      · exfalso
        have hq1 : ';' :: q <:+ v ++ w := ⟨p, by rw [hpq]⟩
        have h2 : (';' :: q) <:+ w :=
          List.suffix_of_suffix_length_le hq1 ⟨v, rfl⟩ (by simp; omega)
        rcases h2 with ⟨t, ht⟩
        apply hw
        rw [← ht]
        simp

theorem ctxFromTable (fullText : Str) (lineNumber col : Nat) (u : Str)
    (h : (lineContent fullText lineNumber).take (col - 1) = u ++ str "FROM ") :
    (getSQLContext fullText lineNumber col).context = CtxKind.table := by
  obtain ⟨v', hv⟩ := currentStatementOf_append
    (joinLinesNl ((splitLines fullText).take (lineNumber - 1)) ++ u) (str "FROM ")
    (by decide)
  have hv2 : currentStatementOf (joinLinesNl ((splitLines fullText).take (lineNumber - 1)) ++
      (u ++ str "FROM ")) = v' ++ str "FROM " := by
    rw [← List.append_assoc]
    exact hv
  have h2 : rstrip (v' ++ str "FROM ") = v' ++ str "FROM" := by
    rw [rstrip_append v' (str "FROM ") (by decide)]
    rfl
  unfold getSQLContext
  simp only [textUpTo, h]
  rw [mdbFROM u]
  rw [hv2, h2, tableKwTest_FROM v']
  rfl

theorem ctxSelectColumn (fullText : Str) (lineNumber col : Nat) (u : Str)
    (h : (lineContent fullText lineNumber).take (col - 1) = u ++ str "SELECT ")
    (hbw : tableKwTest (rstrip (textBeforeWordOf (u ++ str "SELECT ")) ++ [' ']) = false) :
    (getSQLContext fullText lineNumber col).context = CtxKind.column := by
  obtain ⟨v', hv⟩ := currentStatementOf_append
    (joinLinesNl ((splitLines fullText).take (lineNumber - 1)) ++ u) (str "SELECT ")
    (by decide)
  have hv2 : currentStatementOf (joinLinesNl ((splitLines fullText).take (lineNumber - 1)) ++
      (u ++ str "SELECT ")) = v' ++ str "SELECT " := by
    rw [← List.append_assoc]
    exact hv
  have h2 : rstrip (v' ++ str "SELECT ") = v' ++ str "SELECT" := by
    rw [rstrip_append v' (str "SELECT ") (by decide)]
    rfl
  unfold getSQLContext
  simp only [textUpTo, h]
  rw [mdbSELECT u]
  rw [hv2, h2, tableKwTest_SELECT v', hbw, columnKwTest_SELECT v']
  rfl

theorem ctxDotColumn (fullText : Str) (lineNumber col : Nat) (u id0 : Str)
    (h : (lineContent fullText lineNumber).take (col - 1) = (u ++ id0) ++ ['.'])
    (hid : id0 ≠ []) (hall : id0.all isIdentChar = true)
    (hu : List.takeWhile isIdentChar u.reverse = []) :
    (getSQLContext fullText lineNumber col).context = CtxKind.column ∧
      (getSQLContext fullText lineNumber col).tableAlias = some (upperStr id0) := by
  constructor
  · unfold getSQLContext
    simp only [h]
    rw [mdbDot u id0 hid hall hu]
  · unfold getSQLContext
    simp only [h]
    rw [mdbDot u id0 hid hall hu]

/-- C9 (amended): the classifier on a cursor position.  (i) When the text
before the cursor on the cursor line ends with `FROM ` the context is
`table`.  (ii) When it ends with `SELECT `, the context is `column` —
provided the word preceding `SELECT` does not itself pass the
table-keyword test (the original claim omitted this proviso and is
refuted by `C9_counterexample`); no condition on `FROM` is needed.
(iii) When it ends with `identifier.` (the character before the
identifier, if any, not an identifier character), the context is
`column` with `tableAlias` the upper-cased identifier. -/
theorem C9_amended :
    (∀ (fullText : Str) (lineNumber col : Nat) (u : Str),
        (lineContent fullText lineNumber).take (col - 1) = u ++ str "FROM " →
        (getSQLContext fullText lineNumber col).context = CtxKind.table) ∧
    (∀ (fullText : Str) (lineNumber col : Nat) (u : Str),
        (lineContent fullText lineNumber).take (col - 1) = u ++ str "SELECT " →
        tableKwTest (rstrip (textBeforeWordOf (u ++ str "SELECT ")) ++ [' ']) = false →
        (getSQLContext fullText lineNumber col).context = CtxKind.column) ∧
    (∀ (fullText : Str) (lineNumber col : Nat) (u id0 : Str),
        (lineContent fullText lineNumber).take (col - 1) = (u ++ id0) ++ ['.'] →
        id0 ≠ [] → id0.all isIdentChar = true →
        List.takeWhile isIdentChar u.reverse = [] →
        (getSQLContext fullText lineNumber col).context = CtxKind.column ∧
          (getSQLContext fullText lineNumber col).tableAlias = some (upperStr id0)) :=
  ⟨ctxFromTable, ctxSelectColumn, ctxDotColumn⟩

/-- Witness for C9 (amended): all three clauses at concrete cursors. -/
theorem C9_amended_witness :
    (getSQLContext (str "SELECT * FROM ") 1 15).context = CtxKind.table ∧
    (getSQLContext (str "SELECT ") 1 8).context = CtxKind.column ∧
    ((getSQLContext (str "SELECT E.") 1 10).context = CtxKind.column ∧
      (getSQLContext (str "SELECT E.") 1 10).tableAlias = some (upperStr (str "E"))) :=
  ⟨C9_amended.1 (str "SELECT * FROM ") 1 15 (str "SELECT * ") (by decide),
   C9_amended.2.1 (str "SELECT ") 1 8 [] (by decide) (by decide),
   C9_amended.2.2 (str "SELECT E.") 1 10 (str "SELECT ") (str "E")
     (by decide) (by decide) (by decide) (by decide)⟩
